import Mathlib

/-!
Verification development for the seats-aero scrape-resilience core.

Shallow embedding of the Python sources:
  backend/scraper/base.py    (RateLimiter, BaseScraper.with_retry)
  backend/scraper/proxy.py   (ProxyConfig, StickySession, ProxyPool)
  backend/storage/memory.py  (ScrapeStatsTracker, InMemoryStore)
  backend/config/settings.py (the default configuration constants)

Modelling conventions:
* Wall-clock instants are rationals (seconds) in the rate limiter, where
  the error-backoff jitter is a rational, and integers (seconds)
  elsewhere.  datetime.utcnow() becomes an explicit argument of each
  operation that reads the clock.
* asyncio sleeps suspend the caller while the per-limiter lock is held;
  an operation therefore returns its completion instant together with
  the new state, and a trace is valid when each entry instant is at
  least the previous completion instant.
* random draws (jitter factors, random.choice) become explicit
  arguments constrained to the distribution support.
* Python dictionaries are association lists (aget/aset/aerase below) or,
  for the defaultdict(list) indexes, a key list plus an entry function.
* Python truthiness of optional values is modelled by the opt_*_truthy
  helpers (None, empty string, 0 and empty list are falsy).
-/

/-- Lookup in an association list modelling a Python dict (first match). -/
def aget {κ ν : Type} [DecidableEq κ] : List (κ × ν) → κ → Option ν
  | [], _ => none
  | (k, v) :: t, key => if k = key then some v else aget t key

/-- Write to an association list modelling a Python dict: replace the first
binding in place, or append a new binding. -/
def aset {κ ν : Type} [DecidableEq κ] : List (κ × ν) → κ → ν → List (κ × ν)
  | [], key, val => [(key, val)]
  | (k, v) :: t, key, val =>
    if k = key then (k, val) :: t else (k, v) :: aset t key val

/-- Deletion from an association list modelling a Python dict (first match). -/
def aerase {κ ν : Type} [DecidableEq κ] : List (κ × ν) → κ → List (κ × ν)
  | [], _ => []
  | (k, v) :: t, key => if k = key then t else (k, v) :: aerase t key

/-- Truthiness of an optional string (None and the empty string are falsy). -/
def opt_str_truthy : Option String → Bool
  | some s => !s.isEmpty
  | none => false

/-- Truthiness of an optional natural (None and 0 are falsy). -/
def opt_nat_truthy : Option Nat → Bool
  | some n => decide (n ≠ 0)
  | none => false

/-- Truthiness of an optional integer (None and 0 are falsy). -/
def opt_int_truthy : Option Int → Bool
  | some n => decide (n ≠ 0)
  | none => false

/-- Truthiness of an optional string list (None and the empty list are falsy). -/
def opt_list_truthy : Option (List String) → Bool
  | some l => !l.isEmpty
  | none => false

/-- Python substring test (the expression sub in s on strings). -/
def str_contains (s sub : String) : Bool :=
  s.toList.tails.any (fun t => sub.toList.isPrefixOf t)

/-- The Python method str.lower(), as a character-list map (definitionally
transparent, unlike String.toLower, so concrete instances evaluate). -/
def py_lower (s : String) : String := (s.toList.map Char.toLower).asString

/-- The Python method str.upper(), as a character-list map. -/
def py_upper (s : String) : String := (s.toList.map Char.toUpper).asString

/-! ### Configuration defaults, from backend/config/settings.py -/

/-- settings.max_retries_per_job (default 3). -/
def max_retries_per_job : Nat := 3

/-- settings.base_retry_delay_secs (default 5), as a rational number of
seconds. -/
def base_retry_delay_secs : ℚ := 5

/-- settings.proxy_hot_duration_mins (default 30). -/
def proxy_hot_duration_mins : Int := 30

/-- settings.proxy_sticky_duration_mins (default 10). -/
def proxy_sticky_duration_mins : Int := 10

/-! ### RateLimiter, from backend/scraper/base.py -/

/-- Per-program rate limiter state: the configured per-minute limit, the
recorded request timestamps, the backoff deadline and the
consecutive-error counter (class RateLimiter). -/
structure RateLimiter where
  requests_per_minute : Nat
  requests : List ℚ := []
  backoff_until : Option ℚ := none
  consecutive_errors : Nat := 0
deriving DecidableEq

/-- RateLimiter.acquire.  The caller enters at instant now; the lock is
held throughout.  Returns the new state and the completion (grant)
instant: the method first sleeps out any backoff, then prunes
timestamps outside the 60s window, then, when the pruned list is at the
limit, sleeps until the oldest recorded timestamp leaves the window.
Both sleep durations are computed from the stale binding now taken at
entry, exactly as in the source.  The recorded timestamp is also the
stale now.  requests.headD 0 models the subscript self.requests[0],
which the source only reaches with a nonempty list when the limit is
at least 1. -/
def RateLimiter.acquire (rl : RateLimiter) (now : ℚ) : RateLimiter × ℚ :=
  let sleep_backoff : ℚ :=
    match rl.backoff_until with
    | some b => if now < b then b - now else 0
    | none => 0
  let window_start := now - 60
  let requests := rl.requests.filter (fun r => window_start < r)
  let sleep_window : ℚ :=
    if rl.requests_per_minute ≤ requests.length then
      let oldest := requests.headD 0
      if 0 < oldest + 60 - now then oldest + 60 - now else 0
    else 0
  ({ rl with requests := requests ++ [now] }, now + sleep_backoff + sleep_window)

/-- RateLimiter.record_success. -/
def RateLimiter.record_success (rl : RateLimiter) : RateLimiter :=
  { rl with consecutive_errors := 0, backoff_until := none }

/-- Backoff delay computed by RateLimiter.record_error for a
consecutive-error count c, an error kind and a jitter draw
(random.uniform(0.5, 1.5)). -/
def record_error_delay (base_delay : ℚ) (c : Nat) (error_type : String) (jitter : ℚ) : ℚ :=
  let backoff := base_delay * 2 ^ (min c 6)
  let delay := backoff * jitter
  if error_type = "captcha" then delay * 2
  else if error_type = "blocked" then delay * 3
  else delay

/-- RateLimiter.record_error: increment the consecutive-error counter and
set backoff_until to now plus the jittered exponential delay. -/
def RateLimiter.record_error (rl : RateLimiter) (now : ℚ) (error_type : String)
    (jitter : ℚ) (base_delay : ℚ) : RateLimiter :=
  { rl with
    consecutive_errors := rl.consecutive_errors + 1,
    backoff_until :=
      some (now + record_error_delay base_delay (rl.consecutive_errors + 1) error_type jitter) }

/-- One call against a RateLimiter, tagged with its entry instant. -/
inductive RLEvent : Type
  | acquire (entry : ℚ)
  | record_success (entry : ℚ)
  | record_error (entry : ℚ) (kind : String) (jitter : ℚ)
deriving DecidableEq

/-- Entry instant of an event. -/
def RLEvent.entry : RLEvent → ℚ
  | .acquire e => e
  | .record_success e => e
  | .record_error e _ _ => e

/-- Run a sequence of calls against a rate limiter.  t is the completion
instant of the previous call; a trace is valid (result some) when every
entry instant is at least the previous completion instant, since the
per-limiter lock serialises the calls and acquire holds it while
sleeping.  Returns the final state, the final completion instant and
the list of grant instants of the acquire calls. -/
def run_trace (base_delay : ℚ) (rl : RateLimiter) (t : ℚ) :
    List RLEvent → Option (RateLimiter × ℚ × List ℚ)
  | [] => some (rl, t, [])
  | .acquire e :: evs =>
    if e < t then none
    else
      match run_trace base_delay (rl.acquire e).1 (rl.acquire e).2 evs with
      | some (rl2, t2, gs) => some (rl2, t2, (rl.acquire e).2 :: gs)
      | none => none
  | .record_success e :: evs =>
    if e < t then none else run_trace base_delay rl.record_success e evs
  | .record_error e kind j :: evs =>
    if e < t then none else run_trace base_delay (rl.record_error e kind j base_delay) e evs

/-- Invariant of the rate limiter relating its state to the completion
instant t of the last call: the configured limit is positive (the
source indexes requests[0] and is only used with positive per-minute
limits), the recorded list never exceeds limit + 1 entries, every
recorded timestamp is in the past, and when the list is full the
oldest recorded timestamp is already at least 60s old. -/
def RLInv (rl : RateLimiter) (t : ℚ) : Prop :=
  1 ≤ rl.requests_per_minute ∧
  rl.requests.length ≤ rl.requests_per_minute + 1 ∧
  (∀ r ∈ rl.requests, r ≤ t) ∧
  (rl.requests.length = rl.requests_per_minute + 1 → rl.requests.headD 0 + 60 ≤ t)

/-! ### FlightAvailability, from backend/scraper/base.py

Dates are day numbers (date.isoformat is injective, so a date key is
modelled by the date itself); raw_data is omitted (never read by the
core). -/

/-- Normalized flight availability record (dataclass FlightAvailability),
with expires_at already resolved by post-init. -/
structure FlightAvailability where
  id : String
  source_program : String
  origin : String
  destination : String
  airline : String
  flight_number : String
  departure_date : Nat
  departure_time : String
  arrival_time : String
  duration_minutes : Nat
  cabin_class : String
  points_required : Nat
  taxes_fees : ℚ
  seats_available : Nat := 0
  cash_price : ℚ := 0
  stops : Nat := 0
  connection_airports : List String := []
  scraped_at : Int := 0
  expires_at : Int
deriving DecidableEq

/-- FlightAvailability.is_expired at instant now (utcnow() > expires_at). -/
def FlightAvailability.is_expired (f : FlightAvailability) (now : Int) : Bool :=
  decide (f.expires_at < now)

/-! ### BaseScraper.with_retry, from backend/scraper/base.py -/

/-- Error taxonomy raised by adapter operations: the exception classes
CaptchaError, RateLimitError, BlockedError, and any other Exception,
each carrying its message string. -/
inductive AdapterError : Type
  | captcha (msg : String)
  | rate_limit (msg : String)
  | blocked (msg : String)
  | generic (msg : String)
deriving DecidableEq

/-- Message string of an adapter error (str(e) in the handlers). -/
def AdapterError.msg : AdapterError → String
  | .captcha m => m
  | .rate_limit m => m
  | .blocked m => m
  | .generic m => m

/-- Outcome of one adapter attempt: a list of flights, or a raised error. -/
inductive AttemptOutcome : Type
  | ok (flights : List FlightAvailability)
  | raised (e : AdapterError)
deriving DecidableEq

/-- Whether an outcome is a raised error. -/
def AttemptOutcome.isRaised : AttemptOutcome → Bool
  | .ok _ => false
  | .raised _ => true

/-- Result value of a scrape operation (dataclass ScrapeResult).
duration_ms is kept as a field but the embedding does not model the
wall-clock timer, so it stays 0. -/
structure ScrapeResult where
  success : Bool
  flights : List FlightAvailability := []
  error : Option String := none
  error_type : Option String := none
  retry_after : Option Nat := none
  proxy_id : Option String := none
  duration_ms : Nat := 0
deriving DecidableEq

/-- Effective retry budget of with_retry: the Python expression
max_retries or settings.max_retries_per_job, whose or-idiom replaces
both None and 0 by the configured default. -/
def effective_max_retries : Option Nat → Nat → Nat
  | none, default_retries => default_retries
  | some 0, default_retries => default_retries
  | some (m + 1), _ => m + 1

/-- Retry loop body of BaseScraper.with_retry: attempt is the current
loop index, remaining the number of loop iterations left, last_error
the message of the last raised error.  Returns the ScrapeResult
together with the number of adapter calls performed.  The rate-limiter
feedback (record_success / record_error), the proxy hot-marking and
the inter-attempt backoff sleeps mutate collaborator state only and
never alter the returned value or the attempt count, so they are
elided here; every raised error is caught by one of the four except
arms of the source, none escapes. -/
def with_retry_go (operation : Nat → AttemptOutcome) (proxy_id : Option String) :
    Nat → Nat → Option String → ScrapeResult × Nat
  | _, 0, last_error =>
    ({ success := false, error := last_error,
       error_type := some "max_retries_exceeded", proxy_id := proxy_id }, 0)
  | attempt, remaining + 1, _ =>
    match operation attempt with
    | .ok fl => ({ success := true, flights := fl, proxy_id := proxy_id }, 1)
    | .raised e =>
      let rest := with_retry_go operation proxy_id (attempt + 1) remaining (some e.msg)
      (rest.1, rest.2 + 1)

/-- BaseScraper.with_retry: run the operation for up to
effective_max_retries + 1 attempts (the range(max_retries + 1) loop),
returning the result value and the number of attempts performed. -/
def with_retry (operation : Nat → AttemptOutcome) (max_retries : Option Nat)
    (proxy_id : Option String := none) : ScrapeResult × Nat :=
  with_retry_go operation proxy_id 0 (effective_max_retries max_retries max_retries_per_job + 1) none

/-! ### ProxyConfig / StickySession / ProxyPool, from backend/scraper/proxy.py -/

/-- Proxy endpoint with its health tracking fields (dataclass
ProxyConfig).  protocol/username/password only feed the url rendering
and are omitted. -/
structure ProxyConfig where
  host : String
  port : Nat
  is_working : Bool := true
  is_hot : Bool := false
  hot_until : Option Int := none
  last_used : Option Int := none
  fail_count : Nat := 0
  success_count : Nat := 0
  captcha_count : Nat := 0
  avg_response_time : ℚ := 0
deriving DecidableEq

/-- Unique identifier of a proxy (property ProxyConfig.id).  The source
takes the truncated md5 of this same host:port string and only ever
compares ids for equality, so the string itself stands for the hash. -/
def ProxyConfig.pid (p : ProxyConfig) : String :=
  p.host ++ ":" ++ toString p.port

/-- ProxyConfig.mark_success: reset the failure streak, set working,
update the rolling response-time mean (only when a positive response
time is supplied, and using the already-incremented success count). -/
def ProxyConfig.mark_success (p : ProxyConfig) (now : Int) (response_time : ℚ) : ProxyConfig :=
  let p := { p with
    success_count := p.success_count + 1,
    fail_count := 0,
    is_working := true,
    last_used := some now }
  if 0 < response_time then
    { p with avg_response_time :=
        (p.avg_response_time * ((p.success_count : ℚ) - 1) + response_time) / (p.success_count : ℚ) }
  else p

/-- ProxyConfig.mark_failure: increment the failure streak; at 3 or more
consecutive failures flip is_working off. -/
def ProxyConfig.mark_failure (p : ProxyConfig) (now : Int) : ProxyConfig :=
  let p := { p with fail_count := p.fail_count + 1, last_used := some now }
  if 3 ≤ p.fail_count then { p with is_working := false } else p

/-- ProxyConfig.mark_hot: make the endpoint unavailable until now plus the
duration (minutes; the or-idiom makes None and 0 fall back to the
configured default) and count the captcha. -/
def ProxyConfig.mark_hot (p : ProxyConfig) (now : Int) (duration_mins : Option Int) : ProxyConfig :=
  let duration := if opt_int_truthy duration_mins then duration_mins.getD 0
                  else proxy_hot_duration_mins
  { p with is_hot := true, hot_until := some (now + duration * 60),
           captcha_count := p.captcha_count + 1 }

/-- Property ProxyConfig.is_available at instant now.  The property
lazily clears an elapsed hot marker, mutating the object, so it
returns the availability flag together with the updated endpoint. -/
def ProxyConfig.is_available (p : ProxyConfig) (now : Int) : Bool × ProxyConfig :=
  if !p.is_working then (false, p)
  else if p.is_hot then
    match p.hot_until with
    | some h => if h < now then (true, { p with is_hot := false, hot_until := none })
                else (false, p)
    | none => (false, p)
  else (true, p)

/-- Sticky proxy session (dataclass StickySession) with expires_at
resolved by post-init.  The session holds a reference to the pooled
ProxyConfig object; object identity is modelled by the proxy id, to be
dereferenced in the pool of the recorded program. -/
structure StickySession where
  proxy_pid : String
  program : String
  created_at : Int
  expires_at : Int
  request_count : Nat := 0
deriving DecidableEq

/-- Property StickySession.is_expired (utcnow() > expires_at). -/
def StickySession.is_expired (s : StickySession) (now : Int) : Bool :=
  decide (s.expires_at < now)

/-- Proxy pool manager state: per-program pools and the active sticky
sessions (class ProxyPool). -/
structure ProxyPool where
  pools : List (String × List ProxyConfig) := []
  sessions : List (String × StickySession) := []
deriving DecidableEq

/-- Key of the pool ProxyPool.get_pool resolves for a program: the
lowercased program name if that pool exists, else the default pool. -/
def ProxyPool.pool_key (pp : ProxyPool) (program : String) : Option String :=
  if (aget pp.pools (py_lower program)).isSome then some (py_lower program)
  else if (aget pp.pools "default").isSome then some "default"
  else none

/-- ProxyPool.get_pool: the program pool, falling back to the default
pool, falling back to the empty list. -/
def ProxyPool.get_pool (pp : ProxyPool) (program : String) : List ProxyConfig :=
  match pp.pool_key program with
  | some k => (aget pp.pools k).getD []
  | none => []

/-- Replace the pool stored under the resolved key. -/
def ProxyPool.set_pool (pp : ProxyPool) (program : String) (l : List ProxyConfig) : ProxyPool :=
  match pp.pool_key program with
  | some k => { pp with pools := aset pp.pools k l }
  | none => pp

/-- Scan a pool with the mutating is_available property: returns the
available endpoints (in order) and the pool after the lazy hot-marker
clears. -/
def avail_scan (now : Int) : List ProxyConfig → List ProxyConfig × List ProxyConfig
  | [] => ([], [])
  | p :: t =>
    let q := p.is_available now
    let rest := avail_scan now t
    (if q.1 then q.2 :: rest.1 else rest.1, q.2 :: rest.2)

/-- ProxyPool.get_available_proxies: the available (working, non-hot)
endpoints of the resolved pool, together with the pool state after the
lazy hot-expiry mutations. -/
def ProxyPool.get_available_proxies (pp : ProxyPool) (program : String) (now : Int) :
    List ProxyConfig × ProxyPool :=
  let scan := avail_scan now (pp.get_pool program)
  (scan.1, pp.set_pool program scan.2)

/-- Apply f to the first endpoint of the list whose id matches (the
for/break pattern of the mark_* methods of ProxyPool). -/
def mark_first (l : List ProxyConfig) (proxy_id : String) (f : ProxyConfig → ProxyConfig) :
    List ProxyConfig :=
  match l with
  | [] => []
  | p :: t => if p.pid = proxy_id then f p :: t else p :: mark_first t proxy_id f

/-- ProxyPool.mark_success. -/
def ProxyPool.mark_success (pp : ProxyPool) (program proxy_id : String) (now : Int)
    (response_time : ℚ) : ProxyPool :=
  pp.set_pool program (mark_first (pp.get_pool program) proxy_id (fun p => p.mark_success now response_time))

/-- ProxyPool.mark_failure. -/
def ProxyPool.mark_failure (pp : ProxyPool) (program proxy_id : String) (now : Int) : ProxyPool :=
  pp.set_pool program (mark_first (pp.get_pool program) proxy_id (fun p => p.mark_failure now))

/-- ProxyPool.mark_hot. -/
def ProxyPool.mark_hot (pp : ProxyPool) (program proxy_id : String) (now : Int)
    (duration_mins : Option Int) : ProxyPool :=
  pp.set_pool program (mark_first (pp.get_pool program) proxy_id (fun p => p.mark_hot now duration_mins))

/-- ProxyPool.release. -/
def ProxyPool.release (pp : ProxyPool) (job_id : String) : ProxyPool :=
  { pp with sessions := aerase pp.sessions job_id }

/-- Selection half of ProxyPool.acquire, reached when no sticky session
was reused: scan for available endpoints, return no endpoint if there
are none, otherwise pick one (random.choice is the supplied index,
reduced modulo the number of candidates), create the sticky session
when requested, and stamp last_used on the pooled object. -/
def ProxyPool.acquire_select (pp : ProxyPool) (program : String) (job_id : Option String)
    (sticky : Bool) (now : Int) (choice : Nat) : Option ProxyConfig × ProxyPool :=
  let scanned := pp.get_available_proxies program now
  match scanned.1 with
  | [] => (none, scanned.2)
  | a :: t =>
    let available := a :: t
    let proxy := available.getD (choice % available.length) a
    let pp := scanned.2
    let fresh_session : StickySession :=
      { proxy_pid := proxy.pid, program := program, created_at := now,
        expires_at := now + proxy_sticky_duration_mins * 60 }
    let pp :=
      if sticky && opt_str_truthy job_id then
        { pp with sessions := aset pp.sessions (job_id.getD "") fresh_session }
      else pp
    let proxy2 := { proxy with last_used := some now }
    (some proxy2, pp.set_pool program (mark_first (pp.get_pool program) proxy.pid (fun _ => proxy2)))

/-- ProxyPool.acquire: return no endpoint immediately when the global
proxy-enable flag is off; otherwise reuse a live sticky session for
the job when possible (dropping a dead one), else select afresh. -/
def ProxyPool.acquire (pp : ProxyPool) (proxy_enabled : Bool) (program : String)
    (job_id : Option String) (sticky : Bool) (now : Int) (choice : Nat) :
    Option ProxyConfig × ProxyPool :=
  if !proxy_enabled then (none, pp)
  else
    match job_id with
    | some j =>
      if sticky && opt_str_truthy job_id then
        match aget pp.sessions j with
        | some sess =>
          if sess.is_expired now then
            ProxyPool.acquire_select { pp with sessions := aerase pp.sessions j }
              program job_id sticky now choice
          else
            match (pp.get_pool sess.program).find? (fun p => p.pid = sess.proxy_pid) with
            | some p =>
              let q := p.is_available now
              let pp2 := pp.set_pool sess.program
                (mark_first (pp.get_pool sess.program) sess.proxy_pid (fun _ => q.2))
              if q.1 then
                let used := { sess with request_count := sess.request_count + 1 }
                (some q.2, { pp2 with sessions := aset pp2.sessions j used })
              else
                ProxyPool.acquire_select { pp2 with sessions := aerase pp2.sessions j }
                  program job_id sticky now choice
            | none =>
              ProxyPool.acquire_select { pp with sessions := aerase pp.sessions j }
                program job_id sticky now choice
        | none => ProxyPool.acquire_select pp program job_id sticky now choice
      else ProxyPool.acquire_select pp program job_id sticky now choice
    | none => ProxyPool.acquire_select pp program job_id sticky now choice

/-! ### ScrapeStatsTracker, from backend/storage/memory.py -/

/-- Statistics entry for a single scrape operation (dataclass
ScrapeStats). -/
structure ScrapeStatsEntry where
  program : String
  timestamp : Int
  success : Bool
  flights_found : Nat := 0
  duration_ms : Nat := 0
  error_type : Option String := none
  http_status : Option Nat := none
  proxy_id : Option String := none
  origin : Option String := none
  destination : Option String := none
deriving DecidableEq

/-- Aggregated statistics for a program (dataclass ProgramStats). -/
structure ProgramStats where
  program : String
  total_scrapes : Nat := 0
  successful_scrapes : Nat := 0
  failed_scrapes : Nat := 0
  total_flights_found : Nat := 0
  captcha_count : Nat := 0
  rate_limit_count : Nat := 0
  blocked_count : Nat := 0
  timeout_count : Nat := 0
  other_error_count : Nat := 0
  avg_duration_ms : ℚ := 0
  last_success : Option Int := none
  last_failure : Option Int := none
deriving DecidableEq

/-- The Python expression str(stats.http_status or ""): empty for None
and 0, the decimal rendering otherwise. -/
def http_status_str (h : Option Nat) : String :=
  match h with
  | some n => if n ≠ 0 then toString n else ""
  | none => ""

/-- Program-aggregate update performed by ScrapeStatsTracker.record:
increment totals; on success update flight totals, last-success stamp
and the incremental duration mean (the guard successful_scrapes > 0 is
always true after the increment); on failure, when error_type is
truthy, classify it by substring matching on its lowercased text with
http_status fallbacks, incrementing exactly one error counter. -/
def ProgramStats.update (ps : ProgramStats) (stats : ScrapeStatsEntry) : ProgramStats :=
  let ps := { ps with total_scrapes := ps.total_scrapes + 1 }
  if stats.success then
    let ps := { ps with
      successful_scrapes := ps.successful_scrapes + 1,
      total_flights_found := ps.total_flights_found + stats.flights_found,
      last_success := some stats.timestamp }
    { ps with avg_duration_ms :=
        (ps.avg_duration_ms * ((ps.successful_scrapes : ℚ) - 1) + (stats.duration_ms : ℚ))
          / (ps.successful_scrapes : ℚ) }
  else
    let ps := { ps with
      failed_scrapes := ps.failed_scrapes + 1,
      last_failure := some stats.timestamp }
    if opt_str_truthy stats.error_type then
      let error_type := py_lower (stats.error_type.getD "")
      if str_contains error_type "captcha" then
        { ps with captcha_count := ps.captcha_count + 1 }
      else if str_contains error_type "rate_limit"
          || str_contains (http_status_str stats.http_status) "429" then
        { ps with rate_limit_count := ps.rate_limit_count + 1 }
      else if str_contains error_type "blocked"
          || stats.http_status = some 403 || stats.http_status = some 428 then
        { ps with blocked_count := ps.blocked_count + 1 }
      else if str_contains error_type "timeout" then
        { ps with timeout_count := ps.timeout_count + 1 }
      else
        { ps with other_error_count := ps.other_error_count + 1 }
    else ps

/-- Tracker state (class ScrapeStatsTracker): the attempt log, the
per-program aggregates and the per-proxy success/failure counters. -/
structure ScrapeStatsTracker where
  stats : List ScrapeStatsEntry := []
  program_stats : List (String × ProgramStats) := []
  proxy_stats : List (String × (Nat × Nat)) := []
deriving DecidableEq

/-- ScrapeStatsTracker.record: append to the log, update (creating on
first sight) the program aggregate, and update the per-proxy counters
when a proxy id is supplied. -/
def ScrapeStatsTracker.record (tr : ScrapeStatsTracker) (stats : ScrapeStatsEntry) :
    ScrapeStatsTracker :=
  let prog := (aget tr.program_stats stats.program).getD { program := stats.program }
  let tr := { tr with
    stats := tr.stats ++ [stats],
    program_stats := aset tr.program_stats stats.program (prog.update stats) }
  if opt_str_truthy stats.proxy_id then
    let pid := stats.proxy_id.getD ""
    let counters := (aget tr.proxy_stats pid).getD (0, 0)
    let counters := if stats.success then (counters.1 + 1, counters.2)
                    else (counters.1, counters.2 + 1)
    { tr with proxy_stats := aset tr.proxy_stats pid counters }
  else tr

/-- Sum of the five per-kind error counters of a program aggregate. -/
def ProgramStats.error_counter_sum (ps : ProgramStats) : Nat :=
  ps.captcha_count + ps.rate_limit_count + ps.blocked_count + ps.timeout_count
    + ps.other_error_count

/-! ### InMemoryStore, from backend/storage/memory.py -/

/-- Search filters (dataclass SearchFilters).  cabin_class carries the
CabinClass string value; its enum members are all non-empty strings,
so its truthiness is isSome. -/
structure SearchFilters where
  origin : Option String := none
  destination : Option String := none
  departure_date : Option Nat := none
  date_range_start : Option Nat := none
  date_range_end : Option Nat := none
  cabin_class : Option String := none
  max_points : Option Nat := none
  min_points : Option Nat := none
  airlines : Option (List String) := none
  programs : Option (List String) := none
  direct_only : Bool := false
  max_stops : Option Nat := none
deriving DecidableEq

/-- One defaultdict(list) index of the store: the keys present in the
dict plus the entry lists.  Keys absent from the key list have empty
entries.  Subscripting a defaultdict creates the key (touch); dict.get
with default does not. -/
structure IndexMap (κ : Type) where
  keys : List κ
  entries : κ → List String

/-- Fresh empty index. -/
def IndexMap.empty {κ : Type} : IndexMap κ := ⟨[], fun _ => []⟩

/-- Key creation performed by subscripting a defaultdict. -/
def IndexMap.touch {κ : Type} [DecidableEq κ] (m : IndexMap κ) (k : κ) : IndexMap κ :=
  if k ∈ m.keys then m else { m with keys := m.keys ++ [k] }

/-- The statement d[key].append(fid) on a defaultdict(list). -/
def IndexMap.add_entry {κ : Type} [DecidableEq κ] (m : IndexMap κ) (k : κ) (fid : String) :
    IndexMap κ :=
  let m := m.touch k
  { m with entries := fun q => if q = k then m.entries k ++ [fid] else m.entries q }

/-- The statement if fid in d[key]: d[key].remove(fid) on a
defaultdict(list); list.remove drops the first occurrence. -/
def IndexMap.remove_entry {κ : Type} [DecidableEq κ] (m : IndexMap κ) (k : κ) (fid : String) :
    IndexMap κ :=
  let m := m.touch k
  if fid ∈ m.entries k then
    { m with entries := fun q => if q = k then (m.entries k).erase fid else m.entries q }
  else m

/-- The expression d.get(key, []). -/
def IndexMap.get {κ : Type} [DecidableEq κ] (m : IndexMap κ) (k : κ) : List String :=
  if k ∈ m.keys then m.entries k else []

/-- Thread-safe in-memory storage (class InMemoryStore): the primary
id-to-record dict and the three indexes. -/
structure InMemoryStore where
  flights : List (String × FlightAvailability)
  index_by_route : IndexMap String
  index_by_date : IndexMap Nat
  index_by_program : IndexMap String

/-- InMemoryStore.__init__ (also the state after clear()). -/
def InMemoryStore.init : InMemoryStore :=
  { flights := [], index_by_route := IndexMap.empty, index_by_date := IndexMap.empty,
    index_by_program := IndexMap.empty }

/-- InMemoryStore._make_route_key. -/
def make_route_key (origin destination : String) : String :=
  py_upper origin ++ "-" ++ py_upper destination

/-- InMemoryStore._remove_from_indexes: drop the id from the three index
entries keyed by the stored record; no-op when the id is not stored. -/
def InMemoryStore.remove_from_indexes (s : InMemoryStore) (fid : String) : InMemoryStore :=
  match aget s.flights fid with
  | none => s
  | some fl =>
    { s with
      index_by_route := s.index_by_route.remove_entry (make_route_key fl.origin fl.destination) fid,
      index_by_date := s.index_by_date.remove_entry fl.departure_date fid,
      index_by_program := s.index_by_program.remove_entry fl.source_program fid }

/-- InMemoryStore.add: de-index a previous record under the same id,
store the record, and append the id to the three indexes. -/
def InMemoryStore.add (s : InMemoryStore) (flight : FlightAvailability) : InMemoryStore :=
  let s := if (aget s.flights flight.id).isSome then s.remove_from_indexes flight.id else s
  { flights := aset s.flights flight.id flight,
    index_by_route := s.index_by_route.add_entry (make_route_key flight.origin flight.destination) flight.id,
    index_by_date := s.index_by_date.add_entry flight.departure_date flight.id,
    index_by_program := s.index_by_program.add_entry flight.source_program flight.id }

/-- InMemoryStore.add_many. -/
def InMemoryStore.add_many (s : InMemoryStore) (flights : List FlightAvailability) :
    InMemoryStore × Nat :=
  (flights.foldl (fun acc fl => acc.add fl) s, flights.length)

/-- InMemoryStore.remove: de-index then delete; reports whether the id
was present. -/
def InMemoryStore.remove (s : InMemoryStore) (fid : String) : InMemoryStore × Bool :=
  match aget s.flights fid with
  | none => (s, false)
  | some _ =>
    let s := s.remove_from_indexes fid
    ({ s with flights := aerase s.flights fid }, true)

/-- InMemoryStore.clear. -/
def InMemoryStore.clear (_ : InMemoryStore) : InMemoryStore := InMemoryStore.init

/-- InMemoryStore.clear_expired: remove every stored record whose
expires_at is strictly in the past, in iteration order; returns the
number removed. -/
def InMemoryStore.clear_expired (s : InMemoryStore) (now : Int) : InMemoryStore × Nat :=
  let expired := (s.flights.filter (fun q => q.2.is_expired now)).map Prod.fst
  (expired.foldl (fun acc fid => (acc.remove fid).1) s, expired.length)

/-- InMemoryStore._matches_filters: the guard chain of the source, in
order; each clause can only reject.  The final clause rejects records
already expired at instant now. -/
def matches_filters (flight : FlightAvailability) (filters : SearchFilters) (now : Int) : Bool :=
  if opt_str_truthy filters.origin
      && !(py_upper flight.origin = py_upper (filters.origin.getD "")) then false
  else if opt_str_truthy filters.destination
      && !(py_upper flight.destination = py_upper (filters.destination.getD "")) then false
  else if filters.date_range_start.isSome
      && decide (flight.departure_date < filters.date_range_start.getD 0) then false
  else if filters.date_range_end.isSome
      && decide (filters.date_range_end.getD 0 < flight.departure_date) then false
  else if filters.cabin_class.isSome
      && !(flight.cabin_class = filters.cabin_class.getD "") then false
  else if opt_nat_truthy filters.max_points
      && decide (filters.max_points.getD 0 < flight.points_required) then false
  else if opt_nat_truthy filters.min_points
      && decide (flight.points_required < filters.min_points.getD 0) then false
  else if opt_list_truthy filters.airlines
      && !(filters.airlines.getD []).contains flight.airline then false
  else if opt_list_truthy filters.programs
      && !(filters.programs.getD []).contains flight.source_program then false
  else if filters.direct_only && decide (0 < flight.stops) then false
  else if filters.max_stops.isSome
      && decide (filters.max_stops.getD 0 < flight.stops) then false
  else if flight.is_expired now then false
  else true

/-- InMemoryStore._sort_results: Python sorted() is a stable merge sort;
reverse=True sorts by the flipped comparison (permutation-equal to the
source behaviour). -/
def sort_results (results : List FlightAvailability) (sort_by sort_order : String) :
    List FlightAvailability :=
  let rev := py_lower sort_order = "desc"
  let bySorted : (FlightAvailability → FlightAvailability → Bool) → List FlightAvailability :=
    fun le => if rev then results.mergeSort (fun a b => le b a) else results.mergeSort le
  if sort_by = "points" then
    bySorted (fun a b => decide (a.points_required ≤ b.points_required))
  else if sort_by = "duration" then
    bySorted (fun a b => decide (a.duration_minutes ≤ b.duration_minutes))
  else if sort_by = "departure_time" then
    bySorted (fun a b => decide (a.departure_time ≤ b.departure_time))
  else if sort_by = "date" then
    bySorted (fun a b => decide (a.departure_date ≤ b.departure_date))
  else if sort_by = "stops" then
    bySorted (fun a b => decide (a.stops ≤ b.stops))
  else results

/-- Candidate id set of InMemoryStore.search: built from the route,
date and program indexes (Python sets are modelled as deduplicated
lists; intersection filters the left operand, union concatenates), or
all stored ids when no index applies. -/
def InMemoryStore.search_candidate_ids (s : InMemoryStore) (filters : SearchFilters) :
    List String :=
  let cand0 : Option (List String) :=
    if opt_str_truthy filters.origin && opt_str_truthy filters.destination then
      some ((s.index_by_route.get
        (make_route_key (filters.origin.getD "") (filters.destination.getD ""))).dedup)
    else none
  let cand1 : Option (List String) :=
    match filters.departure_date with
    | some d =>
      let date_ids := (s.index_by_date.get d).dedup
      match cand0 with
      | some c => some (c.filter (fun fid => fid ∈ date_ids))
      | none => some date_ids
    | none => cand0
  let cand2 : Option (List String) :=
    if opt_list_truthy filters.programs then
      let program_ids :=
        ((filters.programs.getD []).foldl (fun acc p => acc ++ s.index_by_program.get p) []).dedup
      match cand1 with
      | some c => some (c.filter (fun fid => fid ∈ program_ids))
      | none => some program_ids
    else cand1
  match cand2 with
  | some c => c
  | none => s.flights.map Prod.fst

/-- InMemoryStore.search: filter the candidates against the stored
records and the filter predicate, sort, then slice
results[offset : offset + limit]. -/
def InMemoryStore.search (s : InMemoryStore) (filters : SearchFilters) (now : Int)
    (sort_by : String := "points") (sort_order : String := "asc")
    (limit : Nat := 100) (offset : Nat := 0) : List FlightAvailability :=
  let results := (s.search_candidate_ids filters).filterMap (fun fid =>
    match aget s.flights fid with
    | none => none
    | some flight => if matches_filters flight filters now then some flight else none)
  ((sort_results results sort_by sort_order).drop offset).take limit

/-- Statistics returned by InMemoryStore.get_stats. -/
structure StoreStats where
  total_flights : Nat
  routes : Nat
  dates : Nat
  programs : List (String × Nat)
deriving DecidableEq

/-- Per-program record counts (the defaultdict(int) loop of get_stats):
one binding per distinct program among the stored records. -/
def program_counts (l : List String) : List (String × Nat) :=
  l.dedup.map (fun p => (p, l.count p))

/-- InMemoryStore.get_stats: the record count, the key counts of the
route and date index dicts, and the per-program counts computed fresh
from the stored records. -/
def InMemoryStore.get_stats (s : InMemoryStore) : StoreStats :=
  { total_flights := s.flights.length,
    routes := s.index_by_route.keys.length,
    dates := s.index_by_date.keys.length,
    programs := program_counts (s.flights.map (fun q => q.2.source_program)) }

/-- Well-formedness of one index with respect to the primary dict: keys
are unique, absent keys have empty entries, entry lists hold no
duplicates, and an id appears under a key exactly when a record with
that id is stored and maps to that key. -/
def IndexOk {κ : Type} [DecidableEq κ] (flights : List (String × FlightAvailability))
    (key : FlightAvailability → κ) (m : IndexMap κ) : Prop :=
  m.keys.Nodup ∧
  (∀ k, k ∉ m.keys → m.entries k = []) ∧
  (∀ k, (m.entries k).Nodup) ∧
  (∀ k fid, fid ∈ m.entries k ↔ ∃ fl, aget flights fid = some fl ∧ key fl = k)

/-- Store invariant: unique primary keys and all three indexes
consistent with the primary dict. -/
def StoreInv (s : InMemoryStore) : Prop :=
  (s.flights.map Prod.fst).Nodup ∧
  IndexOk s.flights (fun fl => make_route_key fl.origin fl.destination) s.index_by_route ∧
  IndexOk s.flights (fun fl => fl.departure_date) s.index_by_date ∧
  IndexOk s.flights (fun fl => fl.source_program) s.index_by_program

/-- Intermediate well-formedness of one index while an id is being
re-homed: as IndexOk, except that the id fid is absent from every
entry list (the state between _remove_from_indexes and the
re-insertion or deletion of the record). -/
def IndexOkExcept {κ : Type} [DecidableEq κ] (fid : String)
    (flights : List (String × FlightAvailability)) (key : FlightAvailability → κ)
    (m : IndexMap κ) : Prop :=
  m.keys.Nodup ∧
  (∀ k, k ∉ m.keys → m.entries k = []) ∧
  (∀ k, (m.entries k).Nodup) ∧
  (∀ k fid2, fid2 ∈ m.entries k ↔
    fid2 ≠ fid ∧ ∃ fl, aget flights fid2 = some fl ∧ key fl = k)

/-- Store states reachable through the public mutators. -/
inductive Reachable : InMemoryStore → Prop
  | init : Reachable InMemoryStore.init
  | add (s : InMemoryStore) (fl : FlightAvailability) :
      Reachable s → Reachable (s.add fl)
  | remove (s : InMemoryStore) (fid : String) :
      Reachable s → Reachable (s.remove fid).1
  | clear (s : InMemoryStore) : Reachable s → Reachable s.clear
  | clear_expired (s : InMemoryStore) (now : Int) :
      Reachable s → Reachable (s.clear_expired now).1

/-! ## Helper lemmas -/

theorem with_retry_go_count_le (op : Nat → AttemptOutcome) (pid : Option String) :
    ∀ (rem attempt : Nat) (le : Option String),
      (with_retry_go op pid attempt rem le).2 ≤ rem := by
  intro rem
  induction rem with
  | zero => intro attempt le; simp [with_retry_go]
  | succ r ih =>
    intro attempt le
    simp only [with_retry_go]
    cases op attempt with
    | ok fl => simp
    | raised e => simpa using ih (attempt + 1) (some e.msg)

theorem with_retry_go_all_raised (op : Nat → AttemptOutcome) (pid : Option String)
    (hop : ∀ i, (op i).isRaised = true) :
    ∀ (rem attempt : Nat) (le : Option String),
      (with_retry_go op pid attempt rem le).2 = rem ∧
      (with_retry_go op pid attempt rem le).1.success = false ∧
      (with_retry_go op pid attempt rem le).1.error_type = some "max_retries_exceeded" ∧
      (with_retry_go op pid attempt rem le).1.proxy_id = pid := by
  intro rem
  induction rem with
  | zero => intro attempt le; simp [with_retry_go]
  | succ r ih =>
    intro attempt le
    have h := hop attempt
    simp only [with_retry_go]
    cases hcase : op attempt with
    | ok fl => rw [hcase] at h; simp [AttemptOutcome.isRaised] at h
    | raised e =>
      have := ih (attempt + 1) (some e.msg)
      simpa using this

theorem effective_max_retries_pos (m : Nat) (hm : 1 ≤ m) (d : Nat) :
    effective_max_retries (some m) d = m := by
  cases m with
  | zero => omega
  | succ k => rfl

/-! ## Claim theorems -/

/-- C9: for every pool state, program, job id, stickiness, instant and
random choice, ProxyPool.acquire with the global proxy-enable flag off
returns no endpoint and leaves the pool (in particular its sticky
sessions) untouched. -/
theorem c9_acquire_disabled_returns_none (pp : ProxyPool) (program : String)
    (job_id : Option String) (sticky : Bool) (now : Int) (choice : Nat) :
    pp.acquire false program job_id sticky now choice = (none, pp) := by
  rfl

/-- C10: the search filter predicate applies the points bounds only when
they are nonzero: a max_points (resp. min_points) filter of 0 behaves
exactly like an absent one, for every flight, filter set and instant. -/
theorem c10_zero_points_filters_not_enforced (flight : FlightAvailability)
    (filters : SearchFilters) (now : Int) :
    matches_filters flight { filters with max_points := some 0 } now
      = matches_filters flight { filters with max_points := none } now ∧
    matches_filters flight { filters with min_points := some 0 } now
      = matches_filters flight { filters with min_points := none } now := by
  constructor <;> simp [matches_filters, opt_nat_truthy]

/-- C2 (amended): for max_retries = m with m at least 1, with_retry
performs at most m + 1 adapter attempts, and with an adapter whose
every attempt raises it performs exactly m + 1 attempts and returns a
failure value with error_type max_retries_exceeded; the wrapper is a
total function, so no adapter error escapes it.  The amendment
restricts m to be positive: the Python idiom
max_retries or settings.max_retries_per_job replaces m = 0 by the
configured default (see the counterexample). -/
theorem c2_retry_budget (op : Nat → AttemptOutcome) (pid : Option String) (m : Nat)
    (hm : 1 ≤ m) :
    (with_retry op (some m) pid).2 ≤ m + 1 ∧
    ((∀ i, (op i).isRaised = true) →
      (with_retry op (some m) pid).2 = m + 1 ∧
      (with_retry op (some m) pid).1.success = false ∧
      (with_retry op (some m) pid).1.error_type = some "max_retries_exceeded") := by
  unfold with_retry
  rw [effective_max_retries_pos m hm]
  refine ⟨with_retry_go_count_le op pid (m + 1) 0 none, fun hop => ?_⟩
  have h := with_retry_go_all_raised op pid hop (m + 1) 0 none
  exact ⟨h.1, h.2.1, h.2.2.1⟩

/-- C2 witness: with max_retries = 2 and an adapter that always raises
CaptchaError, with_retry performs exactly 3 attempts and returns
success = false with error_type max_retries_exceeded. -/
theorem c2_retry_budget_witness :
    (with_retry (fun _ => .raised (.captcha "captcha detected")) (some 2) none).2 = 2 + 1 ∧
    (with_retry (fun _ => .raised (.captcha "captcha detected")) (some 2) none).1.success = false ∧
    (with_retry (fun _ => .raised (.captcha "captcha detected")) (some 2) none).1.error_type
      = some "max_retries_exceeded" :=
  (c2_retry_budget (fun _ => .raised (.captcha "captcha detected")) none 2 (by decide)).2
    (fun _ => rfl)

/-- C2 counterexample: the claim quantifies over every max_retries = m,
but passing m = 0 the or-idiom substitutes the configured default
(3), so an always-failing adapter is attempted 4 times, not at most
0 + 1 = 1 time. -/
theorem c2_zero_retries_counterexample :
    (with_retry (fun _ => .raised (.captcha "captcha detected")) (some 0) none).2 = 4 ∧
    ¬ (with_retry (fun _ => .raised (.captcha "captcha detected")) (some 0) none).2 ≤ 0 + 1 := by
  constructor <;> decide

/-- Closed form of the backoff delay: base times the capped power of two
times the jitter times the per-kind multiplier. -/
theorem record_error_delay_eq (base : ℚ) (c : Nat) (kind : String) (j : ℚ) :
    record_error_delay base c kind j =
      base * 2 ^ min c 6 * j *
        (if kind = "captcha" then 2 else if kind = "blocked" then 3 else 1) := by
  unfold record_error_delay
  split_ifs <;> ring

/-- Backoff delay for a captcha error. -/
theorem record_error_delay_captcha (base : ℚ) (c : Nat) (j : ℚ) :
    record_error_delay base c "captcha" j = base * 2 ^ min c 6 * j * 2 := by
  rw [record_error_delay_eq, if_pos rfl]

/-- Backoff delay for a blocked error. -/
theorem record_error_delay_blocked (base : ℚ) (c : Nat) (j : ℚ) :
    record_error_delay base c "blocked" j = base * 2 ^ min c 6 * j * 3 := by
  rw [record_error_delay_eq, if_neg (by decide), if_pos rfl]

/-- Backoff delay for any other error kind. -/
theorem record_error_delay_other (base : ℚ) (c : Nat) (kind : String) (j : ℚ)
    (h1 : kind ≠ "captcha") (h2 : kind ≠ "blocked") :
    record_error_delay base c kind j = base * 2 ^ min c 6 * j := by
  rw [record_error_delay_eq, if_neg h1, if_neg h2, mul_one]

/-- C4 counterexample: the backoff delay is multiplied by a fresh
uniform(0.5, 1.5) jitter draw on every call, so with the configured
base delay (5s) and in-range draws the delay after 2 consecutive
errors (draw 0.5) is strictly smaller than after 1 (draw 1.5), and
for equal k = 1 a blocked error (draw 0.5) gets a strictly smaller
delay than a captcha error (draw 1.5): neither the claimed
monotonicity in k nor the claimed strict kind ordering holds over the
jitter distribution. -/
theorem c4_jitter_counterexample :
    ((1 : ℚ) / 2 ∈ Set.Icc (1 / 2 : ℚ) (3 / 2) ∧ (3 : ℚ) / 2 ∈ Set.Icc (1 / 2 : ℚ) (3 / 2)) ∧
    record_error_delay base_retry_delay_secs 2 "unknown" (1 / 2)
      < record_error_delay base_retry_delay_secs 1 "unknown" (3 / 2) ∧
    record_error_delay base_retry_delay_secs 1 "blocked" (1 / 2)
      < record_error_delay base_retry_delay_secs 1 "captcha" (3 / 2) := by
  have e1 := record_error_delay_other base_retry_delay_secs 2 "unknown" (1 / 2)
    (by decide) (by decide)
  have e2 := record_error_delay_other base_retry_delay_secs 1 "unknown" (3 / 2)
    (by decide) (by decide)
  have e3 := record_error_delay_blocked base_retry_delay_secs 1 (1 / 2)
  have e4 := record_error_delay_captcha base_retry_delay_secs 1 (3 / 2)
  norm_num [base_retry_delay_secs] at e1 e2 e3 e4
  refine ⟨⟨?_, ?_⟩, ?_, ?_⟩ <;>
    norm_num [e1, e2, e3, e4, base_retry_delay_secs, Set.mem_Icc]

/-- C4 (amended): record_error increments the consecutive-error counter
and sets backoff_until to now plus
record_error_delay base (c + 1) kind jitter; for a fixed jitter draw
the delay is non-decreasing in the consecutive-error count (the
exponent is capped at 6), for any in-range draw it is at least
base_delay, and for a common positive draw and equal count it is
strictly larger for blocked than for captcha than for any other kind.
The amendment fixes a common jitter draw in the comparisons: with
independent draws the comparisons fail (see the counterexample). -/
theorem c4_backoff_delay_properties (base j : ℚ) (kind : String) (k k2 : Nat)
    (rl : RateLimiter) (now : ℚ) :
    ((rl.record_error now kind j base).consecutive_errors = rl.consecutive_errors + 1 ∧
     (rl.record_error now kind j base).backoff_until =
       some (now + record_error_delay base (rl.consecutive_errors + 1) kind j)) ∧
    (0 ≤ base → 0 ≤ j → k ≤ k2 →
       record_error_delay base k kind j ≤ record_error_delay base k2 kind j) ∧
    (0 < base → 1 / 2 ≤ j → base ≤ record_error_delay base (k + 1) kind j) ∧
    (0 < base → 0 < j →
       record_error_delay base k "captcha" j < record_error_delay base k "blocked" j ∧
       (kind ≠ "captcha" → kind ≠ "blocked" →
         record_error_delay base k kind j < record_error_delay base k "captcha" j)) := by
  refine ⟨⟨rfl, rfl⟩, ?_, ?_, ?_⟩
  · intro hb hj hk
    have hpow : (2 : ℚ) ^ min k 6 ≤ 2 ^ min k2 6 := by
      apply pow_le_pow_right₀ (by norm_num)
      omega
    have hcore : base * 2 ^ min k 6 * j ≤ base * 2 ^ min k2 6 * j :=
      mul_le_mul_of_nonneg_right (mul_le_mul_of_nonneg_left hpow hb) hj
    have hmul : (0 : ℚ) ≤ (if kind = "captcha" then 2 else if kind = "blocked" then 3 else 1) := by
      split_ifs <;> norm_num
    rw [record_error_delay_eq, record_error_delay_eq]
    exact mul_le_mul_of_nonneg_right hcore hmul
  · intro hb hj
    have hpow : (2 : ℚ) ≤ 2 ^ min (k + 1) 6 := by
      calc (2 : ℚ) = 2 ^ 1 := by norm_num
      _ ≤ 2 ^ min (k + 1) 6 := by
        apply pow_le_pow_right₀ (by norm_num)
        omega
    have h1 : base * 2 ≤ base * 2 ^ min (k + 1) 6 :=
      mul_le_mul_of_nonneg_left hpow hb.le
    have h2 : base * 2 * (1 / 2) ≤ base * 2 ^ min (k + 1) 6 * j :=
      mul_le_mul h1 hj (by norm_num) (by positivity)
    have hcore : base ≤ base * 2 ^ min (k + 1) 6 * j := by linarith
    have hnn : 0 ≤ base * 2 ^ min (k + 1) 6 * j := by positivity
    have hmul : (1 : ℚ) ≤ (if kind = "captcha" then 2 else if kind = "blocked" then 3 else 1) := by
      split_ifs <;> norm_num
    rw [record_error_delay_eq]
    calc base ≤ base * 2 ^ min (k + 1) 6 * j := hcore
    _ ≤ base * 2 ^ min (k + 1) 6 * j *
          (if kind = "captcha" then 2 else if kind = "blocked" then 3 else 1) :=
      le_mul_of_one_le_right hnn hmul
  · intro hb hj
    have hpos : (0 : ℚ) < base * 2 ^ min k 6 * j := by positivity
    refine ⟨?_, fun hk1 hk2 => ?_⟩
    · rw [record_error_delay_captcha, record_error_delay_blocked]
      linarith
    · rw [record_error_delay_other base k kind j hk1 hk2, record_error_delay_captcha]
      linarith

/-- C4 witness: the amended properties evaluated at base 5, common
jitter draw 1, kind unknown, counts 1 and 3. -/
theorem c4_backoff_delay_properties_witness :
    record_error_delay 5 1 "unknown" 1 ≤ record_error_delay 5 3 "unknown" 1 ∧
    (5 : ℚ) ≤ record_error_delay 5 (1 + 1) "unknown" 1 ∧
    record_error_delay 5 1 "captcha" 1 < record_error_delay 5 1 "blocked" 1 := by
  have h := c4_backoff_delay_properties 5 1 "unknown" 1 3 { requests_per_minute := 6 } 0
  exact ⟨h.2.1 (by norm_num) (by norm_num) (by omega),
         h.2.2.1 (by norm_num) (by norm_num),
         (h.2.2.2 (by norm_num) (by norm_num)).1⟩

/-- C7 counterexample: the per-program error counter chosen by the
stats aggregation is not a function of the adapter-supplied kind
alone.  A failed entry of kind generic with http_status 429 increments
rate_limit_count (the classifier falls back on the status code), while
the same kind with no status increments other_error_count; and an
entry whose error_type is the free text CAPTCHA detected on page
increments captcha_count by substring matching.  A failed entry with
no error_type increments no counter at all. -/
theorem c7_classification_counterexample :
    ((ProgramStats.update { program := "p" }
        { program := "p", timestamp := 0, success := false,
          error_type := some "generic", http_status := some 429 }).rate_limit_count = 1 ∧
     (ProgramStats.update { program := "p" }
        { program := "p", timestamp := 0, success := false,
          error_type := some "generic", http_status := some 429 }).other_error_count = 0) ∧
    ((ProgramStats.update { program := "p" }
        { program := "p", timestamp := 0, success := false,
          error_type := some "generic" }).other_error_count = 1 ∧
     (ProgramStats.update { program := "p" }
        { program := "p", timestamp := 0, success := false,
          error_type := some "generic" }).rate_limit_count = 0) ∧
    (ProgramStats.update { program := "p" }
        { program := "p", timestamp := 0, success := false,
          error_type := some "CAPTCHA detected on page" }).captcha_count = 1 ∧
    (ProgramStats.update { program := "p" }
        { program := "p", timestamp := 0, success := false,
          error_type := none }).error_counter_sum = 0 := by
  refine ⟨⟨?_, ?_⟩, ⟨?_, ?_⟩, ?_, ?_⟩ <;> decide

/-- C7 (amended): for a failed entry, the aggregation classifies by
substring matching on the lowercased error_type text with http_status
fallbacks (429 in the status string forces rate_limit; status 403/428
forces blocked), not by the kind tag alone; when the error_type is
truthy exactly one of the five error counters is incremented (the sum
rises by one and every counter is monotone), and when it is falsy
(absent or empty) no error counter changes. -/
theorem c7_one_error_counter_per_failure (ps : ProgramStats) (e : ScrapeStatsEntry)
    (hfail : e.success = false) :
    (opt_str_truthy e.error_type = true →
       (ps.update e).error_counter_sum = ps.error_counter_sum + 1) ∧
    (opt_str_truthy e.error_type = false →
       (ps.update e).error_counter_sum = ps.error_counter_sum) ∧
    ps.captcha_count ≤ (ps.update e).captcha_count ∧
    ps.rate_limit_count ≤ (ps.update e).rate_limit_count ∧
    ps.blocked_count ≤ (ps.update e).blocked_count ∧
    ps.timeout_count ≤ (ps.update e).timeout_count ∧
    ps.other_error_count ≤ (ps.update e).other_error_count := by
  simp only [ProgramStats.update, hfail, Bool.false_eq_true, if_false]
  by_cases ht : opt_str_truthy e.error_type
  · simp only [ht, if_true, ProgramStats.error_counter_sum]
    split_ifs <;> simp <;> omega
  · simp only [ht, if_false, ProgramStats.error_counter_sum]
    simp only [Bool.not_eq_true] at ht
    simp [ht]

/-- C7 witness: the amended statement evaluated on a failed timeout
entry against a fresh aggregate. -/
theorem c7_one_error_counter_per_failure_witness :
    (opt_str_truthy (some "timeout") = true →
      (ProgramStats.update { program := "p" }
        { program := "p", timestamp := 0, success := false,
          error_type := some "timeout" }).error_counter_sum
        = ProgramStats.error_counter_sum { program := "p" } + 1) ∧
    (opt_str_truthy (some "timeout") = false →
      (ProgramStats.update { program := "p" }
        { program := "p", timestamp := 0, success := false,
          error_type := some "timeout" }).error_counter_sum
        = ProgramStats.error_counter_sum { program := "p" }) ∧
    ProgramStats.captcha_count { program := "p" }
      ≤ (ProgramStats.update { program := "p" }
          { program := "p", timestamp := 0, success := false,
            error_type := some "timeout" }).captcha_count ∧
    ProgramStats.rate_limit_count { program := "p" }
      ≤ (ProgramStats.update { program := "p" }
          { program := "p", timestamp := 0, success := false,
            error_type := some "timeout" }).rate_limit_count ∧
    ProgramStats.blocked_count { program := "p" }
      ≤ (ProgramStats.update { program := "p" }
          { program := "p", timestamp := 0, success := false,
            error_type := some "timeout" }).blocked_count ∧
    ProgramStats.timeout_count { program := "p" }
      ≤ (ProgramStats.update { program := "p" }
          { program := "p", timestamp := 0, success := false,
            error_type := some "timeout" }).timeout_count ∧
    ProgramStats.other_error_count { program := "p" }
      ≤ (ProgramStats.update { program := "p" }
          { program := "p", timestamp := 0, success := false,
            error_type := some "timeout" }).other_error_count :=
  c7_one_error_counter_per_failure { program := "p" }
    { program := "p", timestamp := 0, success := false, error_type := some "timeout" } rfl

/-- An endpoint reported available by is_available is working, and the
returned (possibly hot-cleared) endpoint is the same object with the
working flag intact. -/
theorem is_available_true_working (p : ProxyConfig) (now : Int)
    (h : (p.is_available now).1 = true) : (p.is_available now).2.is_working = true := by
  unfold ProxyConfig.is_available at h ⊢
  by_cases hw : p.is_working
  · by_cases hh : p.is_hot
    · cases hu : p.hot_until with
      | none => simp [hw, hh, hu] at h
      | some u =>
        by_cases hlt : u < now
        · simp [hw, hh, hu, hlt]
        · simp [hw, hh, hu, hlt] at h
    · simp [hw, hh]
  · simp [hw] at h

/-- Every endpoint in the available list of a pool scan is working. -/
theorem avail_scan_mem_working (now : Int) :
    ∀ (l : List ProxyConfig) (q : ProxyConfig), q ∈ (avail_scan now l).1 →
      q.is_working = true := by
  intro l
  induction l with
  | nil => intro q hq; simp [avail_scan] at hq
  | cons p t ih =>
    intro q hq
    simp only [avail_scan] at hq
    by_cases hb : (p.is_available now).1
    · simp only [hb, if_true, List.mem_cons] at hq
      rcases hq with hq | hq
      · subst hq; exact is_available_true_working p now hb
      · exact ih q hq
    · simp only [hb, Bool.false_eq_true, if_false] at hq
      exact ih q hq

/-- Every endpoint returned by the selection half of acquire is
working. -/
theorem acquire_select_working (pp : ProxyPool) (program : String) (job_id : Option String)
    (sticky : Bool) (now : Int) (choice : Nat) (q : ProxyConfig) (pp2 : ProxyPool)
    (h : pp.acquire_select program job_id sticky now choice = (some q, pp2)) :
    q.is_working = true := by
  simp only [ProxyPool.acquire_select] at h
  cases hscan : (pp.get_available_proxies program now).1 with
  | nil => rw [hscan] at h; simp at h
  | cons a t =>
    rw [hscan] at h
    simp only [Prod.mk.injEq, Option.some.injEq] at h
    obtain ⟨hq, -⟩ := h
    have hmem : (a :: t).getD (choice % (a :: t).length) a ∈ a :: t := by
      rcases Nat.lt_or_ge (choice % (a :: t).length) (a :: t).length with hlt | hge
      · rw [List.getD_eq_getElem _ _ hlt]
        exact List.getElem_mem hlt
      · rw [List.getD_eq_default _ _ hge]
        exact List.mem_cons_self a t
    have hworking : ((a :: t).getD (choice % (a :: t).length) a).is_working = true := by
      apply avail_scan_mem_working now (pp.get_pool program)
      have : (pp.get_available_proxies program now).1
          = (avail_scan now (pp.get_pool program)).1 := rfl
      rw [← this, hscan]
      exact hmem
    rw [← hq]
    exact hworking

/-- C5 counterexample: after 3 consecutive mark_failure calls the
endpoint has working = false, but the exclusion is not permanent: a
subsequent pool-level mark_success (proxy.py line 87 sets
is_working = True) restores working = true with no manual reset. -/
theorem c5_mark_success_restores_counterexample :
    ((((ProxyConfig.mark_failure { host := "h", port := 1 } 0).mark_failure 1).mark_failure 2).is_working
        = false) ∧
    (((((ProxyConfig.mark_failure { host := "h", port := 1 } 0).mark_failure 1).mark_failure 2).mark_success 3 0).is_working
        = true) ∧
    ((aget (ProxyPool.mark_success
        { pools := [("united",
            [(((ProxyConfig.mark_failure { host := "h", port := 1 } 0).mark_failure 1).mark_failure 2)])],
          sessions := [] } "united" "h:1" 3 0).pools "united").getD []).map
        (fun p => p.is_working) = [true] := by
  refine ⟨?_, ?_, ?_⟩ <;> decide

/-- C5 (amended): after 3 consecutive mark_failure calls (no intervening
success) an endpoint has working = false; a non-working endpoint is
never reported available and is excluded from every acquire selection
(acquire only returns endpoints with working = true, through both the
sticky-session path and the fresh-selection path); further
mark_failure and mark_hot calls keep working = false — but the
exclusion is not permanent: a mark_success call sets working = true
again (see the counterexample), so only the success feedback path,
not just a manual reset, can restore the endpoint. -/
theorem c5_three_failures_exclude (p : ProxyConfig) (t1 t2 t3 now : Int) (rt : ℚ)
    (d : Option Int) :
    ((((p.mark_failure t1).mark_failure t2).mark_failure t3).is_working = false) ∧
    (p.is_working = false →
      ((p.is_available now).1 = false ∧
       (p.mark_failure t1).is_working = false ∧
       (p.mark_hot now d).is_working = false ∧
       (p.mark_success now rt).is_working = true)) ∧
    (∀ (pp : ProxyPool) (enabled : Bool) (program : String) (job_id : Option String)
       (sticky : Bool) (choice : Nat) (q : ProxyConfig) (pp2 : ProxyPool),
       pp.acquire enabled program job_id sticky now choice = (some q, pp2) →
       q.is_working = true) := by
  refine ⟨?_, fun hw => ⟨?_, ?_, ?_, ?_⟩, ?_⟩
  · simp only [ProxyConfig.mark_failure]
    split_ifs with h1 h2 h3 h4 h5 h6 h7 <;> simp_all
  · unfold ProxyConfig.is_available
    simp [hw]
  · simp only [ProxyConfig.mark_failure]
    split_ifs <;> simp_all
  · simp [ProxyConfig.mark_hot, hw]
  · simp only [ProxyConfig.mark_success]
    split_ifs <;> rfl
  · intro pp enabled program job_id sticky choice q pp2 h
    unfold ProxyPool.acquire at h
    by_cases he : enabled
    · simp only [he, Bool.not_true, Bool.false_eq_true, if_false] at h
      cases job_id with
      | none => exact acquire_select_working pp program none sticky now choice q pp2 h
      | some j =>
        by_cases hs : (sticky && opt_str_truthy (some j)) = true
        · simp only [hs, if_true] at h
          cases hsess : aget pp.sessions j with
          | none =>
            simp only [hsess] at h
            exact acquire_select_working pp program (some j) sticky now choice q pp2 h
          | some sess =>
            simp only [hsess] at h
            by_cases hexp : sess.is_expired now = true
            · simp only [hexp, if_true] at h
              exact acquire_select_working _ program (some j) sticky now choice q pp2 h
            · simp only [hexp, Bool.false_eq_true, if_false] at h
              cases hfind : (pp.get_pool sess.program).find? (fun r => r.pid = sess.proxy_pid) with
              | none =>
                simp only [hfind] at h
                exact acquire_select_working _ program (some j) sticky now choice q pp2 h
              | some pfound =>
                simp only [hfind] at h
                by_cases havail : (pfound.is_available now).1 = true
                · simp only [havail, if_true] at h
                  simp only [Prod.mk.injEq, Option.some.injEq] at h
                  obtain ⟨hq, -⟩ := h
                  rw [← hq]
                  exact is_available_true_working pfound now havail
                · simp only [havail, Bool.false_eq_true, if_false] at h
                  exact acquire_select_working _ program (some j) sticky now choice q pp2 h
        · simp only [hs, Bool.false_eq_true, if_false] at h
          exact acquire_select_working pp program (some j) sticky now choice q pp2 h
    · simp only [Bool.not_eq_true] at he
      subst he
      simp at h

/-- C5 witness: the amended statement evaluated on a fresh endpoint
dying after three failures, then checked dead in an availability
probe, and the acquire-exclusion clause instantiated on a one-proxy
pool whose endpoint is alive. -/
theorem c5_three_failures_exclude_witness :
    (((ProxyConfig.mark_failure { host := "h", port := 1 } 0).mark_failure 1).mark_failure 2).is_working
      = false ∧
    ((((ProxyConfig.mark_failure { host := "h", port := 1 } 0).mark_failure 1).mark_failure 2).is_available 5).1
      = false := by
  have h := c5_three_failures_exclude
    (((ProxyConfig.mark_failure { host := "h", port := 1 } 0).mark_failure 1).mark_failure 2)
    3 4 5 5 0 none
  have hdead : (((ProxyConfig.mark_failure { host := "h", port := 1 } 0).mark_failure 1).mark_failure 2).is_working = false := by
    decide
  exact ⟨hdead, (h.2.1 hdead).1⟩

/-- State component of acquire: the pruned window plus the new (stale)
timestamp. -/
theorem acquire_fst (rl : RateLimiter) (now : ℚ) :
    (rl.acquire now).1
      = { rl with requests := (rl.requests.filter (fun r => now - 60 < r)) ++ [now] } := rfl

/-- Grant instant of acquire: entry plus the backoff sleep plus the
window sleep, both computed from the entry instant. -/
theorem acquire_snd (rl : RateLimiter) (now : ℚ) :
    (rl.acquire now).2
      = now
        + (match rl.backoff_until with
           | some b => if now < b then b - now else 0
           | none => 0)
        + (if rl.requests_per_minute ≤ (rl.requests.filter (fun r => now - 60 < r)).length then
             (if 0 < (rl.requests.filter (fun r => now - 60 < r)).headD 0 + 60 - now then
                (rl.requests.filter (fun r => now - 60 < r)).headD 0 + 60 - now
              else 0)
           else 0) := rfl

/-- Under the invariant, at most requests_per_minute recorded timestamps
survive the window prune of an acquire entered at instant now. -/
theorem rl_filter_window_le (rl : RateLimiter) (t now : ℚ) (h : RLInv rl t) (hle : t ≤ now) :
    (rl.requests.filter (fun r => now - 60 < r)).length ≤ rl.requests_per_minute := by
  obtain ⟨hL, hlen, hpast, hfull⟩ := h
  by_cases hfl : rl.requests.length = rl.requests_per_minute + 1
  · cases hreq : rl.requests with
    | nil => rw [hreq] at hfl; simp at hfl
    | cons a l =>
      have ha : a + 60 ≤ t := by
        have := hfull hfl
        rw [hreq] at this
        simpa using this
      have hnot : ¬ (now - 60 < a) := by linarith
      have hfl2 : l.length = rl.requests_per_minute := by
        rw [hreq] at hfl
        simp at hfl
        omega
      rw [List.filter_cons_of_neg (by simpa using hnot)]
      calc (l.filter _).length ≤ l.length := List.length_filter_le _ _
      _ = rl.requests_per_minute := hfl2
  · have hlt : rl.requests.length ≤ rl.requests_per_minute := by omega
    calc (rl.requests.filter _).length ≤ rl.requests.length := List.length_filter_le _ _
    _ ≤ rl.requests_per_minute := hlt

/-- Per-call specification of acquire under the invariant: the grant is
no earlier than the entry, no earlier than any backoff deadline in
force, and the invariant is preserved at the grant instant. -/
theorem rl_acquire_spec (rl : RateLimiter) (t now : ℚ) (h : RLInv rl t) (hle : t ≤ now) :
    (∀ b, rl.backoff_until = some b → b ≤ (rl.acquire now).2) ∧
    now ≤ (rl.acquire now).2 ∧
    RLInv (rl.acquire now).1 (rl.acquire now).2 := by
  obtain ⟨hL, hlen, hpast, hfull⟩ := h
  have hFle := rl_filter_window_le rl t now ⟨hL, hlen, hpast, hfull⟩ hle
  have hs1 : (0 : ℚ) ≤ (match rl.backoff_until with
      | some b => if now < b then b - now else 0
      | none => 0) := by
    cases rl.backoff_until with
    | none => norm_num
    | some b =>
      by_cases hb : now < b
      · simp only [hb, if_true]; linarith
      · simp [hb]
  have hs2 : (0 : ℚ) ≤ (if rl.requests_per_minute ≤ (rl.requests.filter (fun r => now - 60 < r)).length then
      (if 0 < (rl.requests.filter (fun r => now - 60 < r)).headD 0 + 60 - now then
        (rl.requests.filter (fun r => now - 60 < r)).headD 0 + 60 - now
      else 0)
    else 0) := by
    split_ifs <;> linarith
  refine ⟨?_, ?_, ?_, ?_, ?_, ?_⟩
  · intro b hb
    rw [acquire_snd]
    rw [hb]
    by_cases hblt : now < b
    · simp only [hblt, if_true]; linarith
    · simp only [hblt, if_false]
      push_neg at hblt
      linarith
  · rw [acquire_snd]; linarith
  · rw [acquire_fst]; exact hL
  · rw [acquire_fst]
    simp only [List.length_append, List.length_cons, List.length_nil]
    omega
  · rw [acquire_fst, acquire_snd]
    intro r hr
    simp only [List.mem_append, List.mem_singleton] at hr
    rcases hr with hr | hr
    · have hrt : r ≤ t := hpast r (List.mem_of_mem_filter hr)
      linarith
    · subst hr; linarith
  · rw [acquire_fst, acquire_snd]
    intro hlen2
    simp only [List.length_append, List.length_cons, List.length_nil] at hlen2
    have hFlen : (rl.requests.filter (fun r => now - 60 < r)).length = rl.requests_per_minute := by
      omega
    cases hFcase : rl.requests.filter (fun r => now - 60 < r) with
    | nil =>
      rw [hFcase] at hFlen
      simp at hFlen
      omega
    | cons o F2 =>
      rw [hFcase] at hFlen
      have hcond : rl.requests_per_minute ≤ (o :: F2).length := by omega
      simp only [List.cons_append, List.headD_cons]
      rw [if_pos hcond]
      by_cases hpos : 0 < o + 60 - now
      · rw [if_pos hpos]; linarith
      · rw [if_neg hpos]
        push_neg at hpos
        linarith

/-- The invariant only constrains the request list, so it transports to
any later instant and across the bookkeeping mutators. -/
theorem RLInv_mono (rl : RateLimiter) (t e : ℚ) (h : RLInv rl t) (hle : t ≤ e) : RLInv rl e := by
  obtain ⟨hL, hlen, hpast, hfull⟩ := h
  refine ⟨hL, hlen, fun r hr => le_trans (hpast r hr) hle, fun hf => le_trans (hfull hf) hle⟩

/-- Invariant preservation along any valid trace. -/
theorem run_trace_inv (base : ℚ) :
    ∀ (evs : List RLEvent) (rl : RateLimiter) (t : ℚ) (out : RateLimiter × ℚ × List ℚ),
      RLInv rl t → run_trace base rl t evs = some out → RLInv out.1 out.2.1 := by
  intro evs
  induction evs with
  | nil =>
    intro rl t out h hrun
    simp only [run_trace, Option.some.injEq] at hrun
    rw [← hrun]
    exact h
  | cons ev evs ih =>
    intro rl t out h hrun
    cases ev with
    | acquire e =>
      simp only [run_trace] at hrun
      by_cases hlt : e < t
      · rw [if_pos hlt] at hrun; exact absurd hrun (by simp)
      · rw [if_neg hlt] at hrun
        have hle : t ≤ e := not_lt.1 hlt
        cases hrec : run_trace base (rl.acquire e).1 (rl.acquire e).2 evs with
        | none => rw [hrec] at hrun; exact absurd hrun (by simp)
        | some out2 =>
          obtain ⟨rl2, t2, gs⟩ := out2
          rw [hrec] at hrun
          simp only [Option.some.injEq] at hrun
          have hinv2 := (rl_acquire_spec rl t e h hle).2.2
          have := ih (rl.acquire e).1 (rl.acquire e).2 (rl2, t2, gs) hinv2 hrec
          rw [← hrun]
          exact this
    | record_success e =>
      simp only [run_trace] at hrun
      by_cases hlt : e < t
      · rw [if_pos hlt] at hrun; exact absurd hrun (by simp)
      · rw [if_neg hlt] at hrun
        exact ih rl.record_success e out (RLInv_mono rl t e h (not_lt.1 hlt)) hrun
    | record_error e kind j =>
      simp only [run_trace] at hrun
      by_cases hlt : e < t
      · rw [if_pos hlt] at hrun; exact absurd hrun (by simp)
      · rw [if_neg hlt] at hrun
        exact ih (rl.record_error e kind j base) e out (RLInv_mono rl t e h (not_lt.1 hlt)) hrun

/-- C1 counterexample: with limit 1 and no backoff, three acquire calls
entered at instants 0, 10 and 60 form a valid trace and are granted at
instants 0, 60 and 70: the grants at 60 and 70 are two grants inside
the trailing 60-second window ending at 70, exceeding the limit 1.
The cause: acquire records its stale entry instant (10), not its
actual grant instant (60), so the third call only waits until
10 + 60 = 70. -/
theorem c1_window_counterexample :
    run_trace base_retry_delay_secs { requests_per_minute := 1 } 0
        [RLEvent.acquire 0, RLEvent.acquire 10, RLEvent.acquire 60]
      = some ({ requests_per_minute := 1, requests := [10, 60] }, 70, [0, 60, 70]) ∧
    1 < (List.filter (fun g => decide ((10:ℚ) < g) && decide (g ≤ (70:ℚ)))
        [(0:ℚ), 60, 70]).length := by
  constructor
  · norm_num [run_trace, RateLimiter.acquire, RLEvent.entry]
  · norm_num

/-- C1 (amended): across any valid call sequence, no acquire is granted
while now < backoff_until (every grant instant is at least the
backoff deadline in force at entry) and the invariant RLInv is
maintained: at each acquire at most requests_per_minute previously
recorded timestamps lie inside the trailing 60-second window of its
entry instant, and the recorded list never exceeds
requests_per_minute + 1 entries.  The claimed stronger bound — at
most requests_per_minute grants inside every trailing 60-second
window — fails, because acquire records its pre-sleep entry instant
instead of its grant instant (see the counterexample). -/
theorem c1_backoff_and_window_bound (rl : RateLimiter) (t now base : ℚ)
    (evs : List RLEvent) (out : RateLimiter × ℚ × List ℚ) :
    (RLInv rl t → t ≤ now →
       ((rl.requests.filter (fun r => now - 60 < r)).length ≤ rl.requests_per_minute ∧
        (∀ b, rl.backoff_until = some b → b ≤ (rl.acquire now).2) ∧
        now ≤ (rl.acquire now).2 ∧
        RLInv (rl.acquire now).1 (rl.acquire now).2)) ∧
    (RLInv rl t → run_trace base rl t evs = some out → RLInv out.1 out.2.1) := by
  constructor
  · intro h hle
    obtain ⟨h1, h2, h3⟩ := rl_acquire_spec rl t now h hle
    exact ⟨rl_filter_window_le rl t now h hle, h1, h2, h3⟩
  · intro h hrun
    exact run_trace_inv base evs rl t out h hrun

/-- C1 witness: the amended statement instantiated on a limiter at its
limit (limit 1, one timestamp recorded at 0, last completion 0) with
an acquire entered at instant 61, and on the counterexample trace. -/
theorem c1_backoff_and_window_bound_witness :
    (({ requests_per_minute := 1, requests := [0] } : RateLimiter).requests.filter
        (fun r => (61:ℚ) - 60 < r)).length ≤ 1 ∧
    RLInv (({ requests_per_minute := 1, requests := [0] } : RateLimiter).acquire 61).1
      (({ requests_per_minute := 1, requests := [0] } : RateLimiter).acquire 61).2 := by
  have h := c1_backoff_and_window_bound { requests_per_minute := 1, requests := [0] } 0 61
    base_retry_delay_secs [] ({ requests_per_minute := 1, requests := [0] }, 0, [])
  have hinv : RLInv { requests_per_minute := 1, requests := [0] } 0 := by
    refine ⟨by norm_num, by norm_num, ?_, by norm_num⟩
    intro r hr
    simp at hr
    simp [hr]
  have hmain := h.1 hinv (by norm_num)
  exact ⟨hmain.1, hmain.2.2.2⟩

/-! ## Association list lemmas -/

theorem aget_aset_self {κ ν : Type} [DecidableEq κ] (l : List (κ × ν)) (k : κ) (v : ν) :
    aget (aset l k v) k = some v := by
  induction l with
  | nil => simp [aget, aset]
  | cons p t ih =>
    obtain ⟨a, b⟩ := p
    by_cases hak : a = k
    · simp [aget, aset, hak]
    · simp [aget, aset, hak, ih]

theorem aget_aset_ne {κ ν : Type} [DecidableEq κ] (l : List (κ × ν)) (k k2 : κ) (v : ν)
    (h : k2 ≠ k) : aget (aset l k v) k2 = aget l k2 := by
  induction l with
  | nil => simp [aget, aset, Ne.symm h]
  | cons p t ih =>
    obtain ⟨a, b⟩ := p
    by_cases hak : a = k
    · subst hak
      simp [aget, aset, Ne.symm h]
    · simp only [aset, if_neg hak, aget]
      by_cases hak2 : a = k2
      · simp [hak2]
      · simp [hak2, ih]

theorem aget_isSome_mem {κ ν : Type} [DecidableEq κ] (l : List (κ × ν)) (k : κ) (v : ν)
    (h : aget l k = some v) : k ∈ l.map Prod.fst := by
  induction l with
  | nil => simp [aget] at h
  | cons p t ih =>
    obtain ⟨a, b⟩ := p
    by_cases hak : a = k
    · simp [hak]
    · simp only [aget, if_neg hak] at h
      simp [ih h]

theorem aget_eq_none_iff {κ ν : Type} [DecidableEq κ] (l : List (κ × ν)) (k : κ) :
    aget l k = none ↔ k ∉ l.map Prod.fst := by
  induction l with
  | nil => simp [aget]
  | cons p t ih =>
    obtain ⟨a, b⟩ := p
    by_cases hak : a = k
    · simp [aget, hak]
    · simp [aget, hak, ih, Ne.symm hak]

theorem mem_fst_aget {κ ν : Type} [DecidableEq κ] (l : List (κ × ν)) (k : κ)
    (h : k ∈ l.map Prod.fst) : ∃ v, aget l k = some v := by
  cases hg : aget l k with
  | some v => exact ⟨v, rfl⟩
  | none => exact absurd ((aget_eq_none_iff l k).1 hg) (fun hn => hn h)

theorem map_fst_aset {κ ν : Type} [DecidableEq κ] (l : List (κ × ν)) (k : κ) (v : ν) :
    (aset l k v).map Prod.fst
      = if k ∈ l.map Prod.fst then l.map Prod.fst else l.map Prod.fst ++ [k] := by
  induction l with
  | nil => simp [aset]
  | cons p t ih =>
    obtain ⟨a, b⟩ := p
    by_cases hak : a = k
    · simp [aset, hak]
    · simp only [aset, if_neg hak, List.map_cons, ih]
      by_cases hk : k ∈ t.map Prod.fst
      · simp [hk, Ne.symm hak]
      · simp [hk, Ne.symm hak]

theorem nodup_fst_aset {κ ν : Type} [DecidableEq κ] (l : List (κ × ν)) (k : κ) (v : ν)
    (h : (l.map Prod.fst).Nodup) : ((aset l k v).map Prod.fst).Nodup := by
  rw [map_fst_aset]
  by_cases hk : k ∈ l.map Prod.fst
  · simp [hk, h]
  · simp only [hk, if_false]
    rw [List.nodup_append]
    exact ⟨h, List.nodup_singleton k, by simpa using hk⟩

theorem aerase_sublist {κ ν : Type} [DecidableEq κ] (l : List (κ × ν)) (k : κ) :
    (aerase l k).Sublist l := by
  induction l with
  | nil => simp [aerase]
  | cons p t ih =>
    obtain ⟨a, b⟩ := p
    by_cases hak : a = k
    · simp only [aerase, if_pos hak]
      exact List.sublist_cons_self (a, b) t
    · simp only [aerase, if_neg hak]
      exact List.Sublist.cons₂ (a, b) ih

theorem aget_aerase_self {κ ν : Type} [DecidableEq κ] (l : List (κ × ν)) (k : κ)
    (h : (l.map Prod.fst).Nodup) : aget (aerase l k) k = none := by
  induction l with
  | nil => simp [aerase, aget]
  | cons p t ih =>
    obtain ⟨a, b⟩ := p
    simp only [List.map_cons, List.nodup_cons] at h
    by_cases hak : a = k
    · simp only [aerase, if_pos hak]
      rw [aget_eq_none_iff]
      rw [← hak]
      exact h.1
    · simp only [aerase, if_neg hak, aget, if_neg hak]
      exact ih h.2

theorem aget_aerase_ne {κ ν : Type} [DecidableEq κ] (l : List (κ × ν)) (k k2 : κ)
    (h : k2 ≠ k) : aget (aerase l k) k2 = aget l k2 := by
  induction l with
  | nil => simp [aerase]
  | cons p t ih =>
    obtain ⟨a, b⟩ := p
    by_cases hak : a = k
    · subst hak
      simp [aerase, aget, Ne.symm h]
    · simp only [aerase, if_neg hak, aget]
      by_cases hak2 : a = k2
      · simp [hak2]
      · simp [hak2, ih]

theorem mem_iff_aget {κ ν : Type} [DecidableEq κ] (l : List (κ × ν)) (k : κ) (v : ν)
    (h : (l.map Prod.fst).Nodup) : (k, v) ∈ l ↔ aget l k = some v := by
  induction l with
  | nil => simp [aget]
  | cons p t ih =>
    obtain ⟨a, b⟩ := p
    simp only [List.map_cons, List.nodup_cons] at h
    by_cases hak : a = k
    · subst hak
      constructor
      · intro hmem
        rcases List.mem_cons.1 hmem with heq | hmem2
        · rw [Prod.mk.injEq] at heq
          rw [← heq.2]
          simp [aget]
        · exact absurd (List.mem_map_of_mem Prod.fst hmem2) h.1
      · intro hget
        simp only [aget, eq_self_iff_true, if_true, Option.some.injEq] at hget
        rw [← hget]
        exact List.mem_cons_self (a, b) t
    · constructor
      · intro hmem
        rcases List.mem_cons.1 hmem with heq | hmem2
        · rw [Prod.mk.injEq] at heq
          exact absurd heq.1 (Ne.symm hak)
        · have := (ih h.2).1 hmem2
          simpa [aget, hak] using this
      · intro hget
        simp only [aget, if_neg hak] at hget
        exact List.mem_cons_of_mem _ ((ih h.2).2 hget)

/-! ## IndexMap lemmas -/

theorem touch_entries {κ : Type} [DecidableEq κ] (m : IndexMap κ) (k : κ) :
    (m.touch k).entries = m.entries := by
  unfold IndexMap.touch
  split <;> rfl

theorem mem_keys_touch {κ : Type} [DecidableEq κ] (m : IndexMap κ) (k q : κ) :
    q ∈ (m.touch k).keys ↔ q ∈ m.keys ∨ q = k := by
  unfold IndexMap.touch
  by_cases hk : k ∈ m.keys
  · simp only [hk, if_true]
    constructor
    · exact Or.inl
    · rintro (hq | rfl)
      · exact hq
      · exact hk
  · simp [hk]

theorem touch_keys_nodup {κ : Type} [DecidableEq κ] (m : IndexMap κ) (k : κ)
    (h : m.keys.Nodup) : (m.touch k).keys.Nodup := by
  unfold IndexMap.touch
  by_cases hk : k ∈ m.keys
  · simp [hk, h]
  · simp only [hk, if_false]
    rw [List.nodup_append]
    exact ⟨h, List.nodup_singleton k, by simpa using hk⟩

theorem IndexOk_to_except {κ : Type} [DecidableEq κ] (fid : String)
    (flights : List (String × FlightAvailability)) (key : FlightAvailability → κ)
    (m : IndexMap κ) (hok : IndexOk flights key m) (hnone : aget flights fid = none) :
    IndexOkExcept fid flights key m := by
  obtain ⟨h1, h2, h3, h4⟩ := hok
  refine ⟨h1, h2, h3, fun k fid2 => ?_⟩
  rw [h4]
  constructor
  · rintro ⟨fl, hget, hkey⟩
    refine ⟨?_, fl, hget, hkey⟩
    rintro rfl
    rw [hnone] at hget
    exact Option.noConfusion hget
  · rintro ⟨-, fl, hget, hkey⟩
    exact ⟨fl, hget, hkey⟩

theorem IndexOk_remove_entry {κ : Type} [DecidableEq κ] (fid : String)
    (flights : List (String × FlightAvailability)) (key : FlightAvailability → κ)
    (m : IndexMap κ) (f : FlightAvailability)
    (hok : IndexOk flights key m) (hsome : aget flights fid = some f) :
    IndexOkExcept fid flights key (m.remove_entry (key f) fid) := by
  obtain ⟨h1, h2, h3, h4⟩ := hok
  have hfid_mem : fid ∈ m.entries (key f) := (h4 (key f) fid).2 ⟨f, hsome, rfl⟩
  simp only [IndexMap.remove_entry]
  rw [touch_entries]
  rw [if_pos hfid_mem]
  refine ⟨touch_keys_nodup m (key f) h1, ?_, ?_, ?_⟩
  · intro k hk
    simp only
    rw [mem_keys_touch] at hk
    push_neg at hk
    rw [if_neg hk.2]
    exact h2 k hk.1
  · intro k
    simp only
    by_cases hkf : k = key f
    · rw [if_pos hkf]
      exact (h3 (key f)).erase fid
    · rw [if_neg hkf]
      exact h3 k
  · intro k fid2
    simp only
    by_cases hkf : k = key f
    · subst hkf
      rw [if_pos rfl]
      rw [List.Nodup.mem_erase_iff (h3 (key f))]
      rw [h4]
    · rw [if_neg hkf]
      rw [h4]
      constructor
      · rintro ⟨fl, hget, hkey⟩
        refine ⟨?_, fl, hget, hkey⟩
        rintro rfl
        rw [hsome] at hget
        injection hget with hg
        subst hg
        exact hkf hkey.symm
      · rintro ⟨-, fl, hget, hkey⟩
        exact ⟨fl, hget, hkey⟩

theorem IndexOkExcept_add_entry {κ : Type} [DecidableEq κ] (fid : String)
    (flights : List (String × FlightAvailability)) (key : FlightAvailability → κ)
    (m : IndexMap κ) (f : FlightAvailability)
    (hok : IndexOkExcept fid flights key m) :
    IndexOk (aset flights fid f) key (m.add_entry (key f) fid) := by
  obtain ⟨h1, h2, h3, h4⟩ := hok
  have hfid_notmem : ∀ k, fid ∉ m.entries k := by
    intro k hmem
    exact ((h4 k fid).1 hmem).1 rfl
  simp only [IndexMap.add_entry]
  rw [touch_entries]
  refine ⟨touch_keys_nodup m (key f) h1, ?_, ?_, ?_⟩
  · intro k hk
    simp only
    rw [mem_keys_touch] at hk
    push_neg at hk
    rw [if_neg hk.2]
    exact h2 k hk.1
  · intro k
    simp only
    by_cases hkf : k = key f
    · rw [if_pos hkf]
      rw [List.nodup_append]
      refine ⟨h3 (key f), List.nodup_singleton fid, ?_⟩
      intro a ha hb
      rw [List.mem_singleton] at hb
      subst hb
      exact hfid_notmem (key f) ha
    · rw [if_neg hkf]
      exact h3 k
  · intro k fid2
    simp only
    by_cases hfid2 : fid2 = fid
    · subst hfid2
      by_cases hkf : k = key f
      · subst hkf
        rw [if_pos rfl]
        simp only [List.mem_append, List.mem_singleton]
        constructor
        · intro _
          exact ⟨f, aget_aset_self flights fid2 f, rfl⟩
        · intro _
          exact Or.inr trivial
      · rw [if_neg hkf]
        constructor
        · intro hmem
          exact absurd hmem (hfid_notmem k)
        · rintro ⟨fl, hget, hkey⟩
          rw [aget_aset_self] at hget
          injection hget with hg
          subst hg
          exact absurd hkey.symm hkf
    · have hgetne : aget (aset flights fid f) fid2 = aget flights fid2 :=
        aget_aset_ne flights fid fid2 f hfid2
      by_cases hkf : k = key f
      · subst hkf
        rw [if_pos rfl]
        simp only [List.mem_append, List.mem_singleton]
        rw [hgetne]
        constructor
        · rintro (hmem | rfl)
          · exact ((h4 _ fid2).1 hmem).2
          · exact absurd rfl hfid2
        · intro hex
          exact Or.inl ((h4 _ fid2).2 ⟨hfid2, hex⟩)
      · rw [if_neg hkf]
        rw [hgetne]
        constructor
        · intro hmem
          exact ((h4 k fid2).1 hmem).2
        · intro hex
          exact (h4 k fid2).2 ⟨hfid2, hex⟩

theorem IndexOkExcept_erase {κ : Type} [DecidableEq κ] (fid : String)
    (flights : List (String × FlightAvailability)) (key : FlightAvailability → κ)
    (m : IndexMap κ) (hok : IndexOkExcept fid flights key m)
    (hnd : (flights.map Prod.fst).Nodup) :
    IndexOk (aerase flights fid) key m := by
  obtain ⟨h1, h2, h3, h4⟩ := hok
  refine ⟨h1, h2, h3, fun k fid2 => ?_⟩
  rw [h4]
  by_cases hfid2 : fid2 = fid
  · subst hfid2
    simp only [ne_eq, not_true_eq_false, false_and, false_iff]
    rintro ⟨fl, hget, -⟩
    rw [aget_aerase_self flights fid2 hnd] at hget
    exact Option.noConfusion hget
  · rw [aget_aerase_ne flights fid fid2 hfid2]
    tauto

/-! ## Store lemmas -/

theorem remove_from_indexes_flights (s : InMemoryStore) (fid : String) :
    (s.remove_from_indexes fid).flights = s.flights := by
  unfold InMemoryStore.remove_from_indexes
  cases aget s.flights fid <;> rfl

theorem add_flights (s : InMemoryStore) (f : FlightAvailability) :
    (s.add f).flights = aset s.flights f.id f := by
  unfold InMemoryStore.add
  by_cases h : (aget s.flights f.id).isSome
  · simp [h, remove_from_indexes_flights]
  · simp [h]

theorem aget_add (s : InMemoryStore) (f : FlightAvailability) (fid2 : String) :
    aget (s.add f).flights fid2 = if fid2 = f.id then some f else aget s.flights fid2 := by
  rw [add_flights]
  by_cases hf : fid2 = f.id
  · subst hf
    rw [if_pos rfl]
    exact aget_aset_self s.flights f.id f
  · rw [if_neg hf]
    exact aget_aset_ne s.flights f.id fid2 f hf

theorem StoreInv_init : StoreInv InMemoryStore.init := by
  refine ⟨by simp [InMemoryStore.init], ?_, ?_, ?_⟩ <;>
    exact ⟨by simp [InMemoryStore.init, IndexMap.empty],
      fun k _ => rfl, fun k => by simp [InMemoryStore.init, IndexMap.empty],
      fun k fid => by simp [InMemoryStore.init, IndexMap.empty, aget]⟩

theorem StoreInv_add (s : InMemoryStore) (f : FlightAvailability) (h : StoreInv s) :
    StoreInv (s.add f) := by
  obtain ⟨hnd, hr, hd, hp⟩ := h
  unfold InMemoryStore.add
  cases hg : aget s.flights f.id with
  | none =>
    simp only [hg, Option.isSome_none, Bool.false_eq_true, if_false]
    exact ⟨nodup_fst_aset _ _ _ hnd,
      IndexOkExcept_add_entry f.id s.flights _ s.index_by_route f
        (IndexOk_to_except f.id s.flights _ s.index_by_route hr hg),
      IndexOkExcept_add_entry f.id s.flights _ s.index_by_date f
        (IndexOk_to_except f.id s.flights _ s.index_by_date hd hg),
      IndexOkExcept_add_entry f.id s.flights _ s.index_by_program f
        (IndexOk_to_except f.id s.flights _ s.index_by_program hp hg)⟩
  | some f0 =>
    simp only [hg, Option.isSome_some, if_true]
    unfold InMemoryStore.remove_from_indexes
    simp only [hg]
    exact ⟨nodup_fst_aset _ _ _ hnd,
      IndexOkExcept_add_entry f.id s.flights _ _ f
        (IndexOk_remove_entry f.id s.flights _ s.index_by_route f0 hr hg),
      IndexOkExcept_add_entry f.id s.flights _ _ f
        (IndexOk_remove_entry f.id s.flights _ s.index_by_date f0 hd hg),
      IndexOkExcept_add_entry f.id s.flights _ _ f
        (IndexOk_remove_entry f.id s.flights _ s.index_by_program f0 hp hg)⟩

theorem remove_spec (s : InMemoryStore) (fid : String) (h : StoreInv s) :
    StoreInv (s.remove fid).1 ∧
    (∀ fid2, aget (s.remove fid).1.flights fid2
      = if fid2 = fid then none else aget s.flights fid2) := by
  obtain ⟨hnd, hr, hd, hp⟩ := h
  unfold InMemoryStore.remove
  cases hg : aget s.flights fid with
  | none =>
    constructor
    · exact ⟨hnd, hr, hd, hp⟩
    · intro fid2
      by_cases hf : fid2 = fid
      · subst hf; rw [if_pos rfl, hg]
      · rw [if_neg hf]
  | some f0 =>
    unfold InMemoryStore.remove_from_indexes
    simp only [hg]
    have hsub : ((aerase s.flights fid).map Prod.fst).Sublist (s.flights.map Prod.fst) :=
      (aerase_sublist s.flights fid).map Prod.fst
    constructor
    · exact ⟨hnd.sublist hsub,
        IndexOkExcept_erase fid s.flights _ _
          (IndexOk_remove_entry fid s.flights _ s.index_by_route f0 hr hg) hnd,
        IndexOkExcept_erase fid s.flights _ _
          (IndexOk_remove_entry fid s.flights _ s.index_by_date f0 hd hg) hnd,
        IndexOkExcept_erase fid s.flights _ _
          (IndexOk_remove_entry fid s.flights _ s.index_by_program f0 hp hg) hnd⟩
    · intro fid2
      by_cases hf : fid2 = fid
      · subst hf
        rw [if_pos rfl]
        exact aget_aerase_self s.flights fid2 hnd
      · rw [if_neg hf]
        exact aget_aerase_ne s.flights fid fid2 hf

theorem fold_remove_spec (L : List String) :
    ∀ (s : InMemoryStore), StoreInv s →
      StoreInv (L.foldl (fun acc fid => (acc.remove fid).1) s) ∧
      (∀ fid2, aget (L.foldl (fun acc fid => (acc.remove fid).1) s).flights fid2
        = if fid2 ∈ L then none else aget s.flights fid2) := by
  induction L with
  | nil => intro s h; exact ⟨h, fun fid2 => by simp⟩
  | cons a L ih =>
    intro s h
    obtain ⟨h1, h2⟩ := remove_spec s a h
    obtain ⟨hinv, hget⟩ := ih (s.remove a).1 h1
    refine ⟨by simpa using hinv, fun fid2 => ?_⟩
    simp only [List.foldl_cons]
    rw [hget fid2, h2 fid2]
    by_cases hfa : fid2 = a
    · subst hfa
      simp
    · by_cases hfl : fid2 ∈ L
      · simp [hfl]
      · simp [hfl, hfa]

theorem clear_expired_fst (s : InMemoryStore) (now : Int) :
    (s.clear_expired now).1
      = ((s.flights.filter (fun q => q.2.is_expired now)).map Prod.fst).foldl
          (fun acc fid => (acc.remove fid).1) s := rfl

theorem mem_expired_iff (s : InMemoryStore) (now : Int) (fid : String) (hnd : (s.flights.map Prod.fst).Nodup) :
    fid ∈ (s.flights.filter (fun q => q.2.is_expired now)).map Prod.fst
      ↔ ∃ fl, aget s.flights fid = some fl ∧ fl.is_expired now = true := by
  rw [List.mem_map]
  constructor
  · rintro ⟨⟨k, v⟩, hmem, rfl⟩
    rw [List.mem_filter] at hmem
    exact ⟨v, (mem_iff_aget s.flights k v hnd).1 hmem.1, hmem.2⟩
  · rintro ⟨fl, hget, hexp⟩
    refine ⟨(fid, fl), ?_, rfl⟩
    rw [List.mem_filter]
    exact ⟨(mem_iff_aget s.flights fid fl hnd).2 hget, hexp⟩

theorem StoreInv_reachable (s : InMemoryStore) (h : Reachable s) : StoreInv s := by
  induction h with
  | init => exact StoreInv_init
  | add s fl _ ih => exact StoreInv_add s fl ih
  | remove s fid _ ih => exact (remove_spec s fid ih).1
  | clear s _ _ => exact StoreInv_init
  | clear_expired s now _ ih =>
    rw [clear_expired_fst]
    exact (fold_remove_spec _ s ih).1

/-- C3: on every reachable store, clear_expired removes exactly the
records with expires_at < now and leaves every other record unchanged
(the primary dict afterwards holds an id-record pair exactly when it
held it before and the record was not expired); afterwards
index-to-primary-map consistency holds: the full store invariant is
re-established, in particular a stored id appears in the route, date
and program index entries under its record's keys, and any id in an
index entry is a key of the primary dict mapping to that key. -/
theorem c3_clear_expired_exact (s : InMemoryStore) (now : Int) (h : Reachable s) :
    (∀ fid fl, aget (s.clear_expired now).1.flights fid = some fl
       ↔ (aget s.flights fid = some fl ∧ ¬ fl.expires_at < now)) ∧
    StoreInv (s.clear_expired now).1 ∧
    (∀ fid fl, aget (s.clear_expired now).1.flights fid = some fl →
       fid ∈ (s.clear_expired now).1.index_by_route.entries
           (make_route_key fl.origin fl.destination) ∧
       fid ∈ (s.clear_expired now).1.index_by_date.entries fl.departure_date ∧
       fid ∈ (s.clear_expired now).1.index_by_program.entries fl.source_program) ∧
    (∀ (k : String) (fid : String),
       fid ∈ (s.clear_expired now).1.index_by_route.entries k →
       ∃ fl, aget (s.clear_expired now).1.flights fid = some fl ∧
         make_route_key fl.origin fl.destination = k) ∧
    (∀ (k : Nat) (fid : String),
       fid ∈ (s.clear_expired now).1.index_by_date.entries k →
       ∃ fl, aget (s.clear_expired now).1.flights fid = some fl ∧
         fl.departure_date = k) ∧
    (∀ (k : String) (fid : String),
       fid ∈ (s.clear_expired now).1.index_by_program.entries k →
       ∃ fl, aget (s.clear_expired now).1.flights fid = some fl ∧
         fl.source_program = k) := by
  have hinv := StoreInv_reachable s h
  have hnd := hinv.1
  rw [clear_expired_fst]
  obtain ⟨hinv2, hget⟩ :=
    fold_remove_spec ((s.flights.filter (fun q => q.2.is_expired now)).map Prod.fst) s hinv
  have hchar : ∀ fid fl,
      aget (((s.flights.filter (fun q => q.2.is_expired now)).map Prod.fst).foldl
          (fun acc fid => (acc.remove fid).1) s).flights fid = some fl
        ↔ (aget s.flights fid = some fl ∧ ¬ fl.expires_at < now) := by
    intro fid fl
    rw [hget fid]
    by_cases hmem : fid ∈ (s.flights.filter (fun q => q.2.is_expired now)).map Prod.fst
    · rw [if_pos hmem]
      obtain ⟨fl0, hg0, hexp0⟩ := (mem_expired_iff s now fid hnd).1 hmem
      constructor
      · intro hx
        exact absurd hx (by simp)
      · rintro ⟨hgfl, hnexp⟩
        rw [hgfl] at hg0
        injection hg0 with he
        subst he
        exact absurd (of_decide_eq_true hexp0) hnexp
    · rw [if_neg hmem]
      constructor
      · intro hgfl
        refine ⟨hgfl, fun hlt => ?_⟩
        exact hmem ((mem_expired_iff s now fid hnd).2 ⟨fl, hgfl, decide_eq_true hlt⟩)
      · exact fun hx => hx.1
  refine ⟨hchar, hinv2, ?_, ?_, ?_, ?_⟩
  · intro fid fl hg
    exact ⟨(hinv2.2.1.2.2.2 _ fid).2 ⟨fl, hg, rfl⟩,
      (hinv2.2.2.1.2.2.2 _ fid).2 ⟨fl, hg, rfl⟩,
      (hinv2.2.2.2.2.2.2 _ fid).2 ⟨fl, hg, rfl⟩⟩
  · intro k fid hmem
    exact (hinv2.2.1.2.2.2 k fid).1 hmem
  · intro k fid hmem
    exact (hinv2.2.2.1.2.2.2 k fid).1 hmem
  · intro k fid hmem
    exact (hinv2.2.2.2.2.2.2 k fid).1 hmem

/-- C3 witness: a store holding one record that expires at instant 100,
swept at instant 200: the record is gone and the invariant holds. -/
theorem c3_clear_expired_exact_witness :
    aget ((InMemoryStore.init.add { id := "f1", source_program := "united", origin := "SFO", destination := "JFK", airline := "UA", flight_number := "UA1", departure_date := 0, departure_time := "08:00", arrival_time := "16:00", duration_minutes := 360, cabin_class := "economy", points_required := 40000, taxes_fees := 0, expires_at := 100 }).clear_expired 200).1.flights "f1" = none ∧
    StoreInv ((InMemoryStore.init.add { id := "f1", source_program := "united", origin := "SFO", destination := "JFK", airline := "UA", flight_number := "UA1", departure_date := 0, departure_time := "08:00", arrival_time := "16:00", duration_minutes := 360, cabin_class := "economy", points_required := 40000, taxes_fees := 0, expires_at := 100 }).clear_expired 200).1 := by
  have h := c3_clear_expired_exact (InMemoryStore.init.add { id := "f1", source_program := "united", origin := "SFO", destination := "JFK", airline := "UA", flight_number := "UA1", departure_date := 0, departure_time := "08:00", arrival_time := "16:00", duration_minutes := 360, cabin_class := "economy", points_required := 40000, taxes_fees := 0, expires_at := 100 }) 200
    (Reachable.add InMemoryStore.init _ Reachable.init)
  refine ⟨?_, h.2.1⟩
  cases hg : aget ((InMemoryStore.init.add { id := "f1", source_program := "united", origin := "SFO", destination := "JFK", airline := "UA", flight_number := "UA1", departure_date := 0, departure_time := "08:00", arrival_time := "16:00", duration_minutes := 360, cabin_class := "economy", points_required := 40000, taxes_fees := 0, expires_at := 100 }).clear_expired 200).1.flights "f1" with
  | none => rfl
  | some fl =>
    have hx := (h.1 "f1" fl).1 hg
    rw [aget_add] at hx
    have hfl : fl = { id := "f1", source_program := "united", origin := "SFO", destination := "JFK", airline := "UA", flight_number := "UA1", departure_date := 0, departure_time := "08:00", arrival_time := "16:00", duration_minutes := 360, cabin_class := "economy", points_required := 40000, taxes_fees := 0, expires_at := 100 } := by
      have h2 := hx.1
      simp only [if_pos rfl] at h2
      injection h2 with he
      exact he.symm
    subst hfl
    exact absurd (by decide) hx.2

/-- Sum of the per-program counts reported by get_stats: always the
number of stored records. -/
theorem program_counts_sum (l : List String) :
    ((program_counts l).map Prod.snd).sum = l.length := by
  unfold program_counts
  rw [List.map_map]
  simpa [Function.comp] using List.sum_map_count_dedup_eq_length l

/-- Under the index invariant, the number of distinct index keys among
the stored records is at most the number of keys present in the index
dict. -/
theorem IndexOk_keys_cover {κ : Type} [DecidableEq κ]
    (flights : List (String × FlightAvailability)) (key : FlightAvailability → κ)
    (m : IndexMap κ) (hnd : (flights.map Prod.fst).Nodup) (hok : IndexOk flights key m) :
    ((flights.map (fun q => key q.2)).dedup).length ≤ m.keys.length := by
  apply List.Subperm.length_le
  apply List.Nodup.subperm (List.nodup_dedup _)
  intro k hk
  rw [List.mem_dedup] at hk
  obtain ⟨⟨fid, fl⟩, hmem, rfl⟩ := List.mem_map.1 hk
  have hg : aget flights fid = some fl := (mem_iff_aget flights fid fl hnd).1 hmem
  have hentry : fid ∈ m.entries (key fl) := (hok.2.2.2 _ fid).2 ⟨fl, hg, rfl⟩
  by_contra hknot
  rw [hok.2.1 _ hknot] at hentry
  exact (List.not_mem_nil fid) hentry

/-- Adding a record with a fresh id appends that id to the primary
key list. -/
theorem add_map_fst_fresh (s : InMemoryStore) (f : FlightAvailability)
    (h : aget s.flights f.id = none) :
    (s.add f).flights.map Prod.fst = s.flights.map Prod.fst ++ [f.id] := by
  rw [add_flights, map_fst_aset, if_neg]
  rwa [← aget_eq_none_iff]

/-- Inserting records with pairwise-distinct fresh ids grows the store
by one record each. -/
theorem fold_add_length (rs : List FlightAvailability) :
    ∀ (s : InMemoryStore), (∀ f ∈ rs, f.id ∉ s.flights.map Prod.fst) →
      (rs.map (fun f => f.id)).Nodup →
      (rs.foldl (fun acc fl => acc.add fl) s).flights.length = s.flights.length + rs.length := by
  induction rs with
  | nil => intro s _ _; simp
  | cons f rs ih =>
    intro s hfresh hnd
    simp only [List.map_cons, List.nodup_cons] at hnd
    have hfidnone : aget s.flights f.id = none :=
      (aget_eq_none_iff s.flights f.id).2 (hfresh f (List.mem_cons_self f rs))
    have hmap := add_map_fst_fresh s f hfidnone
    have hlen : (s.add f).flights.length = s.flights.length + 1 := by
      have := congrArg List.length hmap
      simpa using this
    simp only [List.foldl_cons]
    rw [ih (s.add f) ?_ hnd.2, hlen]
    · simp only [List.length_cons]
      omega
    · intro g hg
      rw [hmap]
      simp only [List.mem_append, List.mem_singleton]
      push_neg
      refine ⟨fun hgs => hfresh g (List.mem_cons_of_mem f hg) hgs, fun hgid => ?_⟩
      exact hnd.1 (hgid ▸ List.mem_map_of_mem (fun f => f.id) hg)

/-- C8 counterexample: get_stats does not report the count of distinct
routes among the currently stored records: index keys are never
removed (outside clear), so after add then remove the store is empty
(total 0, no stored routes) yet get_stats reports routes = 1. -/
theorem c8_stale_route_key_counterexample :
    ((((InMemoryStore.init.add { id := "f1", source_program := "united", origin := "SFO", destination := "JFK", airline := "UA", flight_number := "UA1", departure_date := 0, departure_time := "08:00", arrival_time := "16:00", duration_minutes := 360, cabin_class := "economy", points_required := 40000, taxes_fees := 0, expires_at := 100 }).remove "f1").1.get_stats).routes = 1) ∧
    ((((InMemoryStore.init.add { id := "f1", source_program := "united", origin := "SFO", destination := "JFK", airline := "UA", flight_number := "UA1", departure_date := 0, departure_time := "08:00", arrival_time := "16:00", duration_minutes := 360, cabin_class := "economy", points_required := 40000, taxes_fees := 0, expires_at := 100 }).remove "f1").1.flights.map
        (fun q => make_route_key q.2.origin q.2.destination)).dedup.length = 0) ∧
    ((((InMemoryStore.init.add { id := "f1", source_program := "united", origin := "SFO", destination := "JFK", airline := "UA", flight_number := "UA1", departure_date := 0, departure_time := "08:00", arrival_time := "16:00", duration_minutes := 360, cabin_class := "economy", points_required := 40000, taxes_fees := 0, expires_at := 100 }).remove "f1").1.get_stats).total_flights = 0) := by
  refine ⟨?_, ?_, ?_⟩ <;> decide

/-- C8 (amended): get_stats reports the exact stored-record count and
per-program counts summing to that total; its routes and dates fields
are the numbers of keys present in the index dicts, which bound from
above (and after removals may exceed) the distinct route and date
counts among the currently stored records; inserting N records with
distinct ids into an empty cache yields total_flights = N (and hence
per-program counts summing to N). -/
theorem c8_get_stats_counts (s : InMemoryStore) (rs : List FlightAvailability) :
    ((s.get_stats).total_flights = s.flights.length ∧
     (((s.get_stats).programs.map Prod.snd).sum = (s.get_stats).total_flights)) ∧
    (StoreInv s →
      ((s.flights.map (fun q => make_route_key q.2.origin q.2.destination)).dedup.length
          ≤ (s.get_stats).routes ∧
       (s.flights.map (fun q => q.2.departure_date)).dedup.length ≤ (s.get_stats).dates)) ∧
    ((rs.map (fun f => f.id)).Nodup →
      (((rs.foldl (fun acc fl => acc.add fl) InMemoryStore.init).get_stats).total_flights
        = rs.length ∧
       (((rs.foldl (fun acc fl => acc.add fl) InMemoryStore.init).get_stats).programs.map
          Prod.snd).sum = rs.length)) := by
  refine ⟨⟨rfl, ?_⟩, fun hinv => ⟨?_, ?_⟩, fun hnd => ?_⟩
  · unfold InMemoryStore.get_stats
    simp only
    rw [program_counts_sum]
    simp
  · exact IndexOk_keys_cover s.flights _ s.index_by_route hinv.1 hinv.2.1
  · exact IndexOk_keys_cover s.flights _ s.index_by_date hinv.1 hinv.2.2.1
  · have hlen := fold_add_length rs InMemoryStore.init (by intro f _ hf; simp [InMemoryStore.init] at hf) hnd
    have htot : ((rs.foldl (fun acc fl => acc.add fl) InMemoryStore.init).get_stats).total_flights
        = rs.length := by
      unfold InMemoryStore.get_stats
      simpa [InMemoryStore.init] using hlen
    refine ⟨htot, ?_⟩
    unfold InMemoryStore.get_stats
    simp only
    rw [program_counts_sum]
    simp only [List.length_map]
    simpa [InMemoryStore.init] using hlen

/-- C8 witness: the amended statement on a two-record insertion into the
empty cache (distinct ids, two programs) and on the empty store. -/
theorem c8_get_stats_counts_witness :
    ((([({ id := "f1", source_program := "united", origin := "SFO", destination := "JFK", airline := "UA", flight_number := "UA1", departure_date := 0, departure_time := "08:00", arrival_time := "16:00", duration_minutes := 360, cabin_class := "economy", points_required := 40000, taxes_fees := 0, expires_at := 100 } : FlightAvailability), { id := "f2", source_program := "aeroplan", origin := "YYZ", destination := "LHR", airline := "AC", flight_number := "AC2", departure_date := 1, departure_time := "09:00", arrival_time := "17:00", duration_minutes := 400, cabin_class := "business", points_required := 60000, taxes_fees := 0, expires_at := 100 }].foldl (fun acc fl => acc.add fl)
        InMemoryStore.init).get_stats).total_flights = 2 ∧
     ((([({ id := "f1", source_program := "united", origin := "SFO", destination := "JFK", airline := "UA", flight_number := "UA1", departure_date := 0, departure_time := "08:00", arrival_time := "16:00", duration_minutes := 360, cabin_class := "economy", points_required := 40000, taxes_fees := 0, expires_at := 100 } : FlightAvailability), { id := "f2", source_program := "aeroplan", origin := "YYZ", destination := "LHR", airline := "AC", flight_number := "AC2", departure_date := 1, departure_time := "09:00", arrival_time := "17:00", duration_minutes := 400, cabin_class := "business", points_required := 60000, taxes_fees := 0, expires_at := 100 }].foldl (fun acc fl => acc.add fl)
        InMemoryStore.init).get_stats).programs.map Prod.snd).sum = 2) ∧
    ((InMemoryStore.init.flights.map
        (fun q => make_route_key q.2.origin q.2.destination)).dedup.length
      ≤ (InMemoryStore.init.get_stats).routes) := by
  constructor
  · exact (c8_get_stats_counts InMemoryStore.init [{ id := "f1", source_program := "united", origin := "SFO", destination := "JFK", airline := "UA", flight_number := "UA1", departure_date := 0, departure_time := "08:00", arrival_time := "16:00", duration_minutes := 360, cabin_class := "economy", points_required := 40000, taxes_fees := 0, expires_at := 100 }, { id := "f2", source_program := "aeroplan", origin := "YYZ", destination := "LHR", airline := "AC", flight_number := "AC2", departure_date := 1, departure_time := "09:00", arrival_time := "17:00", duration_minutes := 400, cabin_class := "business", points_required := 60000, taxes_fees := 0, expires_at := 100 }]).2.2 (by decide)
  · exact ((c8_get_stats_counts InMemoryStore.init []).2.1 StoreInv_init).1

/-- Under the index invariant, dict.get(k, []) returns exactly the entry
list. -/
theorem IndexOk_get {κ : Type} [DecidableEq κ]
    (flights : List (String × FlightAvailability)) (key : FlightAvailability → κ)
    (m : IndexMap κ) (hok : IndexOk flights key m) (k : κ) :
    m.get k = m.entries k := by
  unfold IndexMap.get
  by_cases hk : k ∈ m.keys
  · rw [if_pos hk]
  · rw [if_neg hk, hok.2.1 k hk]

/-- Under the index invariant, every id found in an index entry is a
stored primary key. -/
theorem mem_get_mem_fst {κ : Type} [DecidableEq κ]
    {flights : List (String × FlightAvailability)} {key : FlightAvailability → κ}
    {m : IndexMap κ} (hok : IndexOk flights key m) {k : κ} {fid : String}
    (h : fid ∈ m.get k) : fid ∈ flights.map Prod.fst := by
  rw [IndexOk_get flights key m hok k] at h
  obtain ⟨fl, hg, -⟩ := (hok.2.2.2 k fid).1 h
  exact aget_isSome_mem flights fid fl hg

/-- Membership in the program-id union accumulator. -/
theorem mem_programs_union (m : IndexMap String) (ps : List String) :
    ∀ (acc : List String) (fid : String),
      fid ∈ ps.foldl (fun acc p => acc ++ m.get p) acc →
      fid ∈ acc ∨ ∃ p ∈ ps, fid ∈ m.get p := by
  induction ps with
  | nil => intro acc fid h; exact Or.inl h
  | cons p ps ih =>
    intro acc fid h
    rcases ih (acc ++ m.get p) fid h with hmem | ⟨q, hq, hfq⟩
    · rcases List.mem_append.1 hmem with h1 | h2
      · exact Or.inl h1
      · exact Or.inr ⟨p, List.mem_cons_self p ps, h2⟩
    · exact Or.inr ⟨q, List.mem_cons_of_mem p hq, hfq⟩

/-- The candidate id list of a search holds no duplicates and only
stored primary keys. -/
theorem search_candidate_ids_spec (s : InMemoryStore) (filters : SearchFilters)
    (hinv : StoreInv s) :
    (s.search_candidate_ids filters).Nodup ∧
    ∀ fid ∈ s.search_candidate_ids filters, fid ∈ s.flights.map Prod.fst := by
  obtain ⟨hnd, hr, hd, hp⟩ := hinv
  have hRouteSub : ∀ (k : String) (fid : String),
      fid ∈ (s.index_by_route.get k).dedup → fid ∈ s.flights.map Prod.fst :=
    fun k fid h => mem_get_mem_fst hr (List.mem_dedup.1 h)
  have hDateSub : ∀ (k : Nat) (fid : String),
      fid ∈ (s.index_by_date.get k).dedup → fid ∈ s.flights.map Prod.fst :=
    fun k fid h => mem_get_mem_fst hd (List.mem_dedup.1 h)
  have hProgSub : ∀ (fid : String),
      fid ∈ (((filters.programs.getD []).foldl
          (fun acc p => acc ++ s.index_by_program.get p) []).dedup) →
      fid ∈ s.flights.map Prod.fst := by
    intro fid h
    rcases mem_programs_union s.index_by_program (filters.programs.getD []) [] fid
        (List.mem_dedup.1 h) with hmem | ⟨q, -, hfq⟩
    · exact absurd hmem (List.not_mem_nil fid)
    · exact mem_get_mem_fst hp hfq
  simp only [InMemoryStore.search_candidate_ids]
  by_cases hb : (opt_str_truthy filters.origin && opt_str_truthy filters.destination) = true
  · rw [if_pos hb]
    cases hdate : filters.departure_date with
    | some d =>
      by_cases hpr : opt_list_truthy filters.programs = true
      · rw [if_pos hpr]
        refine ⟨(List.nodup_dedup _).filter _ |>.filter _, fun fid hf => ?_⟩
        exact hRouteSub _ fid (List.mem_of_mem_filter (List.mem_of_mem_filter hf))
      · rw [if_neg hpr]
        refine ⟨(List.nodup_dedup _).filter _, fun fid hf => ?_⟩
        exact hRouteSub _ fid (List.mem_of_mem_filter hf)
    | none =>
      by_cases hpr : opt_list_truthy filters.programs = true
      · rw [if_pos hpr]
        refine ⟨(List.nodup_dedup _).filter _, fun fid hf => ?_⟩
        exact hRouteSub _ fid (List.mem_of_mem_filter hf)
      · rw [if_neg hpr]
        exact ⟨List.nodup_dedup _, fun fid hf => hRouteSub _ fid hf⟩
  · rw [if_neg hb]
    cases hdate : filters.departure_date with
    | some d =>
      by_cases hpr : opt_list_truthy filters.programs = true
      · rw [if_pos hpr]
        refine ⟨(List.nodup_dedup _).filter _, fun fid hf => ?_⟩
        exact hDateSub d fid (List.mem_of_mem_filter hf)
      · rw [if_neg hpr]
        exact ⟨List.nodup_dedup _, fun fid hf => hDateSub d fid hf⟩
    | none =>
      by_cases hpr : opt_list_truthy filters.programs = true
      · rw [if_pos hpr]
        exact ⟨List.nodup_dedup _, fun fid hf => hProgSub fid hf⟩
      · rw [if_neg hpr]
        exact ⟨hnd, fun fid hf => hf⟩

/-- Sorting permutes the results (Python sorted is a permutation). -/
theorem sort_results_perm (l : List FlightAvailability) (sort_by sort_order : String) :
    (sort_results l sort_by sort_order).Perm l := by
  simp only [sort_results]
  split_ifs <;> first
    | exact List.mergeSort_perm l _
    | exact List.Perm.refl l

/-- Every record returned by search passes the filter predicate. -/
theorem search_mem_matches (s : InMemoryStore) (filters : SearchFilters) (now : Int)
    (sort_by sort_order : String) (limit offset : Nat) (fl : FlightAvailability)
    (h : fl ∈ s.search filters now sort_by sort_order limit offset) :
    matches_filters fl filters now = true := by
  unfold InMemoryStore.search at h
  have h1 : fl ∈ sort_results ((s.search_candidate_ids filters).filterMap (fun fid =>
      match aget s.flights fid with
      | none => none
      | some flight => if matches_filters flight filters now then some flight else none))
      sort_by sort_order :=
    List.mem_of_mem_drop (List.mem_of_mem_take h)
  have h2 := (sort_results_perm _ sort_by sort_order).subset h1
  obtain ⟨fid, -, hg⟩ := List.mem_filterMap.1 h2
  cases hget : aget s.flights fid with
  | none =>
    simp only [hget] at hg
    exact absurd hg (by simp)
  | some flight =>
    simp only [hget] at hg
    by_cases hm : matches_filters flight filters now = true
    · rw [if_pos hm] at hg
      injection hg with he
      rw [← he]
      exact hm
    · rw [if_neg hm] at hg
      exact absurd hg (by simp)

/-- A stored record is returned by a search whose filters carry its
exact origin, destination and departure date, no program filter, a
passing filter predicate, and a limit at least the store size
(pagination cannot truncate). -/
theorem search_contains_core (s : InMemoryStore) (r : FlightAvailability) (now : Int)
    (filters : SearchFilters) (sort_by sort_order : String) (limit : Nat)
    (hinv : StoreInv s)
    (hr : aget s.flights r.id = some r)
    (hfo : filters.origin = some r.origin)
    (hfd : filters.destination = some r.destination)
    (hfdate : filters.departure_date = some r.departure_date)
    (hprog : filters.programs = none)
    (hmatch : matches_filters r filters now = true)
    (hlim : s.flights.length ≤ limit) :
    r ∈ s.search filters now sort_by sort_order limit 0 := by
  obtain ⟨hcnd, hcsub⟩ := search_candidate_ids_spec s filters hinv
  have hmemR : r.id ∈ s.index_by_route.entries (make_route_key r.origin r.destination) :=
    (hinv.2.1.2.2.2 _ r.id).2 ⟨r, hr, rfl⟩
  have hmemD : r.id ∈ s.index_by_date.entries r.departure_date :=
    (hinv.2.2.1.2.2.2 _ r.id).2 ⟨r, hr, rfl⟩
  have hgetR := IndexOk_get s.flights _ s.index_by_route hinv.2.1
  have hgetD := IndexOk_get s.flights _ s.index_by_date hinv.2.2.1
  have hdmem : r.id ∈ (s.index_by_date.get r.departure_date).dedup :=
    List.mem_dedup.2 (by rw [hgetD]; exact hmemD)
  have hcand : r.id ∈ s.search_candidate_ids filters := by
    by_cases hb : (opt_str_truthy filters.origin && opt_str_truthy filters.destination) = true
    · rw [hfo, hfd] at hb
      simp only [InMemoryStore.search_candidate_ids, hfdate, hprog, opt_list_truthy,
        Bool.false_eq_true, if_false, hfo, hfd, Option.getD_some, hb, if_true]
      rw [List.mem_filter]
      refine ⟨List.mem_dedup.2 (by rw [hgetR]; exact hmemR), ?_⟩
      exact decide_eq_true hdmem
    · rw [Bool.not_eq_true] at hb
      rw [hfo, hfd] at hb
      simp only [InMemoryStore.search_candidate_ids, hfdate, hprog, opt_list_truthy,
        Bool.false_eq_true, if_false, hfo, hfd, Option.getD_some, hb]
      exact hdmem
  have hres : r ∈ (s.search_candidate_ids filters).filterMap (fun fid =>
      match aget s.flights fid with
      | none => none
      | some flight => if matches_filters flight filters now then some flight else none) :=
    List.mem_filterMap.2 ⟨r.id, hcand, by simp [hr, hmatch]⟩
  have hclen : (s.search_candidate_ids filters).length ≤ s.flights.length := by
    have hsub : s.search_candidate_ids filters ⊆ s.flights.map Prod.fst := fun fid hf =>
      hcsub fid hf
    calc (s.search_candidate_ids filters).length
        ≤ (s.flights.map Prod.fst).length := (hcnd.subperm hsub).length_le
    _ = s.flights.length := List.length_map _ _
  have hlen2 : ((s.search_candidate_ids filters).filterMap (fun fid =>
      match aget s.flights fid with
      | none => none
      | some flight => if matches_filters flight filters now then some flight else none)).length
        ≤ limit :=
    le_trans (le_trans (List.length_filterMap_le _ _) hclen) hlim
  simp only [InMemoryStore.search]
  rw [List.drop_zero, List.take_of_length_le]
  · exact ((sort_results_perm _ sort_by sort_order).mem_iff).2 hres
  · rw [(sort_results_perm _ _ _).length_eq]
    exact hlen2

/-- The filter predicate accepts a non-expired record against its own
origin, destination and exact date when the max-points filter is
absent or at least the required points. -/
theorem matches_filters_c6 (r : FlightAvailability) (now : Int) (mp : Option Nat)
    (hexp : ¬ r.expires_at < now)
    (hmp : opt_nat_truthy mp = true → ¬ (mp.getD 0 < r.points_required)) :
    matches_filters r
      { origin := some r.origin, destination := some r.destination,
        departure_date := some r.departure_date, max_points := mp } now = true := by
  by_cases ht : opt_nat_truthy mp = true
  · have hnlt := hmp ht
    simp [matches_filters, ht, hexp, FlightAvailability.is_expired, hnlt,
      opt_list_truthy]
  · rw [Bool.not_eq_true] at ht
    simp [matches_filters, ht, hexp, FlightAvailability.is_expired, opt_list_truthy]

/-- The filter predicate rejects a record when the max-points filter is
positive and strictly below the required points. -/
theorem not_matches_filters_c6 (r : FlightAvailability) (now : Int) (m : Nat)
    (hm0 : 0 < m) (hlt : m < r.points_required) :
    matches_filters r
      { origin := some r.origin, destination := some r.destination,
        departure_date := some r.departure_date, max_points := some m } now = false := by
  have hne : m ≠ 0 := Nat.pos_iff_ne_zero.1 hm0
  simp [matches_filters, opt_nat_truthy, hne, hlt]

/-- C6: on any invariant-satisfying store, after add(r) of a record not
yet expired at query instant now, a search filtering on exactly the
record's origin, destination and departure date returns a list
containing r (with offset 0 and a limit at least the store size, so
pagination cannot drop it); adding max_points at least
r.points_required still returns it; and with 0 < max_points <
r.points_required the result excludes r. -/
theorem c6_add_then_search (s : InMemoryStore) (r : FlightAvailability) (now : Int)
    (limit : Nat) (hinv : StoreInv s) (hexp : ¬ r.expires_at < now)
    (hlim : (s.add r).flights.length ≤ limit) :
    (r ∈ (s.add r).search
        { origin := some r.origin, destination := some r.destination,
          departure_date := some r.departure_date } now "points" "asc" limit 0) ∧
    (∀ m : Nat, r.points_required ≤ m →
      r ∈ (s.add r).search
        { origin := some r.origin, destination := some r.destination,
          departure_date := some r.departure_date, max_points := some m } now
        "points" "asc" limit 0) ∧
    (∀ m : Nat, 0 < m → m < r.points_required →
      r ∉ (s.add r).search
        { origin := some r.origin, destination := some r.destination,
          departure_date := some r.departure_date, max_points := some m } now
        "points" "asc" limit 0) := by
  have hinv2 := StoreInv_add s r hinv
  have hr : aget (s.add r).flights r.id = some r := by
    rw [aget_add]
    simp
  refine ⟨?_, ?_, ?_⟩
  · exact search_contains_core (s.add r) r now _ "points" "asc" limit hinv2 hr rfl rfl rfl rfl
      (matches_filters_c6 r now none hexp (by intro h; exact absurd h (by simp [opt_nat_truthy])))
      hlim
  · intro m hm
    exact search_contains_core (s.add r) r now _ "points" "asc" limit hinv2 hr rfl rfl rfl rfl
      (matches_filters_c6 r now (some m) hexp
        (fun _ => by simpa using Nat.not_lt.2 hm))
      hlim
  · intro m hm0 hmlt hmem
    have := search_mem_matches (s.add r) _ now "points" "asc" limit 0 r hmem
    rw [not_matches_filters_c6 r now m hm0 hmlt] at this
    exact Bool.false_ne_true this

/-- C6 witness: the record of the spec scenario (SFO to JFK, 40000
points) inserted into the empty store is returned by a matching
search, also with max_points 50000, and excluded with max_points
30000. -/
theorem c6_add_then_search_witness :
    ({ id := "f1", source_program := "united", origin := "SFO", destination := "JFK", airline := "UA", flight_number := "UA1", departure_date := 0, departure_time := "08:00", arrival_time := "16:00", duration_minutes := 360, cabin_class := "economy", points_required := 40000, taxes_fees := 0, expires_at := 100 } : FlightAvailability)
      ∈ (InMemoryStore.init.add { id := "f1", source_program := "united", origin := "SFO", destination := "JFK", airline := "UA", flight_number := "UA1", departure_date := 0, departure_time := "08:00", arrival_time := "16:00", duration_minutes := 360, cabin_class := "economy", points_required := 40000, taxes_fees := 0, expires_at := 100 }).search
        { origin := some "SFO", destination := some "JFK", departure_date := some 0,
          max_points := some 50000 } 50 "points" "asc" 100 0 ∧
    ({ id := "f1", source_program := "united", origin := "SFO", destination := "JFK", airline := "UA", flight_number := "UA1", departure_date := 0, departure_time := "08:00", arrival_time := "16:00", duration_minutes := 360, cabin_class := "economy", points_required := 40000, taxes_fees := 0, expires_at := 100 } : FlightAvailability)
      ∉ (InMemoryStore.init.add { id := "f1", source_program := "united", origin := "SFO", destination := "JFK", airline := "UA", flight_number := "UA1", departure_date := 0, departure_time := "08:00", arrival_time := "16:00", duration_minutes := 360, cabin_class := "economy", points_required := 40000, taxes_fees := 0, expires_at := 100 }).search
        { origin := some "SFO", destination := some "JFK", departure_date := some 0,
          max_points := some 30000 } 50 "points" "asc" 100 0 := by
  have h := c6_add_then_search InMemoryStore.init
    { id := "f1", source_program := "united", origin := "SFO", destination := "JFK", airline := "UA", flight_number := "UA1", departure_date := 0, departure_time := "08:00", arrival_time := "16:00", duration_minutes := 360, cabin_class := "economy", points_required := 40000, taxes_fees := 0, expires_at := 100 }
    50 100 StoreInv_init (by decide) (by decide)
  exact ⟨h.2.1 50000 (by decide), h.2.2 30000 (by decide) (by decide)⟩
